import Mathlib

/-!
# Verification development for the PetPro resolution pipeline

Shallow embedding of the session-scoped resolution pipeline implemented in
`petpro_agent/tools/tools.py`: the matching engine (`match_customer`,
`match_pet`, `match_service_semantic`), the field extraction helpers, and the
stateful `ensure_*` tools (`ensure_customer_exists`, `ensure_service_matched`,
`ensure_booking_exists`) together with the cached-state and remote-API model
they run against.

Python conventions carried over into the embedding:
* Optional JSON string fields are `Option String`; Python truthiness of an
  optional string (`if x:`) is `otruthy` (false for `None` and for `""`).
* `rapidfuzz.fuzz.ratio` is the normalized indel similarity scaled to 0..100,
  represented exactly as a rational (`fuzzSimilarity`), with the indel distance
  computed from the longest common subsequence.
* The remote API is modeled by a `World` record (the server's customers,
  services and bookings); every remote call is logged as an `ApiCall` so that
  theorems can count network traffic.
-/

/-- `substrAux n h` decides whether the list `n` occurs contiguously in `h`
(the semantics of Python's `needle in haystack` on strings). -/
def substrAux (n : List Char) : List Char → Bool
  | [] => n.isPrefixOf []
  | c :: cs => n.isPrefixOf (c :: cs) || substrAux n cs

/-- Python `needle in hay` for strings: contiguous-substring test. -/
def isSubstrOf (needle hay : String) : Bool :=
  substrAux needle.data hay.data

/-- Python truthiness of an optional string: `None` and `""` are falsy. -/
def otruthy : Option String → Bool
  | none => false
  | some s => s != ""

/-- Python `str.lower()` (ASCII case folding, kernel-computable). -/
def pyToLower (s : String) : String :=
  String.mk (s.data.map Char.toLower)

/-- Python `str.strip()`: drop whitespace from both ends. -/
def pyStrip (s : String) : String :=
  String.mk (((s.data.dropWhile Char.isWhitespace).reverse.dropWhile
    Char.isWhitespace).reverse)

/-- Python `sep.join(parts)`. -/
def pyJoin (sep : String) : List String → String
  | [] => ""
  | x :: xs => xs.foldl (fun acc y => acc ++ sep ++ y) x

/-- Split a character list at separators chosen by `p` (keeping empties). -/
def splitAux (p : Char → Bool) : List Char → List Char → List String
  | [], acc => [String.mk acc.reverse]
  | c :: cs, acc =>
    if p c then String.mk acc.reverse :: splitAux p cs []
    else splitAux p cs (c :: acc)

/-- Python `str.split()` with no argument: split on whitespace runs,
discarding empty pieces. -/
def pySplit (s : String) : List String :=
  (splitAux Char.isWhitespace s.data []).filter (fun t => t != "")

/-- Python `set(a) == set(b)` on lists: equality of the underlying sets. -/
def setEq [DecidableEq α] (a b : List α) : Bool :=
  a.all (fun x => b.contains x) && b.all (fun x => a.contains x)

/-! ## Data model (JSON records of §3 of the spec, typed) -/

/-- A pet record as returned inside a customer profile. -/
structure Pet where
  id : Option String
  name : String
  species : String
  breed : Option String
  gender : Option String
  deriving Repr, DecidableEq

/-- A customer record as returned by "list customers by professional". -/
structure Customer where
  id : String
  firstName : String
  lastName : String
  email : String
  phone : String
  professionalId : String
  pets : List Pet
  deriving Repr, DecidableEq

/-- The `serviceRate` object nested in a service. -/
structure ServiceRate where
  id : Option String
  amount : Option ℚ
  deriving Repr, DecidableEq

/-- A service record as returned by "list services by professional". -/
structure Service where
  id : Option String
  name : String
  amount : Option ℚ
  serviceRate : Option ServiceRate
  deriving Repr, DecidableEq

/-- An entry of a booking's `bookingPets` array. -/
structure BookingPet where
  petId : Option String
  deriving Repr, DecidableEq

/-- A booking record. -/
structure Booking where
  id : String
  clientId : Option String
  serviceId : Option String
  serviceRateId : Option String
  professionalId : Option String
  startDate : Option String
  endDate : Option String
  startTime : Option String
  endTime : Option String
  status : String
  bookingPets : List BookingPet
  notes : Option String
  deriving Repr, DecidableEq

/-! ## Matching engine -/

/-- The email criterion of `match_customer`: both sides truthy and equal
case-insensitively. -/
def emailMatches (email : Option String) (c : Customer) : Bool :=
  match email with
  | some e => e != "" && c.email != "" && pyToLower c.email == pyToLower e
  | none => false

/-- The phone criterion of `match_customer`: both sides truthy and exactly
equal. -/
def phoneMatches (phone : Option String) (c : Customer) : Bool :=
  match phone with
  | some p => p != "" && c.phone != "" && c.phone == p
  | none => false

/-- The name criterion of `match_customer`, keeping Python's operator
precedence: `customer_name and name.lower() in customer_name or customer_name
in name.lower()` parses as `(customer_name ≠ "" ∧ lower name in customer_name)
∨ (customer_name in lower name)`. -/
def nameMatches (name : Option String) (c : Customer) : Bool :=
  match name with
  | some n =>
    n != "" &&
    (let customerName := pyToLower (pyStrip (c.firstName ++ " " ++ c.lastName))
     (customerName != "" && isSubstrOf (pyToLower n) customerName) ||
       isSubstrOf customerName (pyToLower n))
  | none => false

/-- Embeds `match_customer` (tools.py). The Python loop checks, per candidate
in list order: email, then phone, then name, returning the first candidate
satisfying any criterion. -/
def matchCustomer (customers : List Customer)
    (email phone name : Option String) : Option Customer :=
  match customers with
  | [] => none
  | c :: rest =>
    if emailMatches email c then some c
    else if phoneMatches phone c then some c
    else if nameMatches name c then some c
    else matchCustomer rest email phone name

/-- Length of a longest common subsequence, with structural fuel (the fuel
starts at the summed lengths and dominates every recursive call, so the
zero-fuel branch is never taken on the initial call). -/
def lcsAux : Nat → List Char → List Char → Nat
  | 0, _, _ => 0
  | _ + 1, [], _ => 0
  | _ + 1, _ :: _, [] => 0
  | fuel + 1, a :: as, b :: bs =>
    if a = b then 1 + lcsAux fuel as bs
    else max (lcsAux fuel as (b :: bs)) (lcsAux fuel (a :: as) bs)

/-- Length of a longest common subsequence of two character lists. -/
def lcs (a b : List Char) : Nat :=
  lcsAux (a.length + b.length) a b

/-- `rapidfuzz.fuzz.ratio a b`: normalized indel similarity scaled to 0..100,
as an exact rational.  The indel distance is `|a| + |b| - 2·lcs a b`, so
`100·(|a|+|b| - indel)/(|a|+|b|)` simplifies to `100·(2·lcs)/(|a|+|b|)`
(and the value is `100` for two empty strings, matching rapidfuzz). -/
def fuzzSimilarity (a b : String) : ℚ :=
  let la := a.length
  let lb := b.length
  if la + lb = 0 then 100
  else mkRat (100 * (2 * lcs a.data b.data)) (la + lb)

/-- The lowered/stripped name of a pet, as `match_pet` computes it. -/
def petKey (p : Pet) : String := pyStrip (pyToLower p.name)

/-- The fuzzy-tier loop of `match_pet`: running best match and best score,
updating when a candidate with a nonempty name scores strictly above the
running best and at least the 85 threshold. -/
def fuzzyBestAux (pn : String) : List Pet → Option Pet × ℚ → Option Pet × ℚ
  | [], acc => acc
  | p :: ps, acc =>
    if petKey p != "" then
      let score := fuzzSimilarity pn (petKey p)
      if score > acc.2 ∧ 85 ≤ score then fuzzyBestAux pn ps (some p, score)
      else fuzzyBestAux pn ps acc
    else fuzzyBestAux pn ps acc

/-- The fuzzy tier of `match_pet` (rapidfuzz available, threshold 85). -/
def fuzzyBest (pets : List Pet) (pn : String) : Option Pet :=
  (fuzzyBestAux pn pets (none, 0)).1

/-- Embeds `match_pet` (tools.py): guard on empty inputs, then exact
case-insensitive tier, then the fuzzy tier (`HAS_FUZZY_MATCHING` true:
rapidfuzz is a declared dependency), then bidirectional substring tier. -/
def matchPet (pets : List Pet) (petName : String) : Option Pet :=
  if pets.isEmpty || petName == "" then none
  else
    let pn := pyStrip (pyToLower petName)
    match pets.find? (fun p => petKey p == pn) with
    | some p => some p
    | none =>
      match fuzzyBest pets pn with
      | some p => some p
      | none =>
        pets.find? (fun p => isSubstrOf pn (petKey p) || isSubstrOf (petKey p) pn)

/-! ### Service matching -/

/-- Keyword list for the "pet sitting" category (tools.py `keywords`). -/
def petSittingKeywords : List String :=
  ["pet sitting", "pet sitter", "sitting", "overnight", "overnight care",
   "watch", "watch my", "look after", "look after my",
   "care for", "care for my", "pet care", "dog sitting", "cat sitting",
   "babysit", "babysitting", "pet babysitting", "stay with", "stay with my",
   "house sit", "house sitting", "pet house sitting"]

/-- Keyword list for the "dog walking" category. -/
def dogWalkingKeywords : List String :=
  ["dog walking", "dog walker", "walk", "walk my dog",
   "take my dog for a walk", "dog walk", "take dog out", "walk the dog",
   "daily walk", "regular walk"]

/-- Keyword list for the "grooming" category. -/
def groomingKeywords : List String :=
  ["grooming", "groom", "bath", "bathe", "bathe my", "wash",
   "wash my", "pet grooming", "dog grooming", "cat grooming", "nail trim",
   "nail clipping", "haircut", "hair cut", "trim"]

/-- The `keywords` dict of `match_service_semantic`, in insertion order. -/
def keywordCategories : List (String × List String) :=
  [("pet sitting", petSittingKeywords),
   ("dog walking", dogWalkingKeywords),
   ("grooming", groomingKeywords)]

/-- Stop words removed from the word-overlap signal. -/
def stopWords : List String :=
  ["pet", "my", "the", "a", "an", "for", "of", "with"]

/-- One iteration of the priority-2 loop of `match_service_semantic`: when
the request contains some keyword of the category and the service name
contains the category name, raise the score to `500 + (len - idx)·10` for
the earliest matching keyword index `idx`. -/
def keywordStep (req sname : String) (sc : Nat) (cat : String × List String) :
    Nat :=
  let requestHasKeywords := cat.2.any (fun kw => isSubstrOf kw req)
  let serviceHasType := isSubstrOf cat.1 sname
  if requestHasKeywords && serviceHasType then
    match cat.2.findIdx? (fun kw => isSubstrOf kw req) with
    | some idx => max sc (500 + (cat.2.length - idx) * 10)
    | none => sc
  else sc

/-- The priority-2 loop of `match_service_semantic` over the three keyword
categories. -/
def keywordScore (req sname : String) (score0 : Nat) : Nat :=
  keywordCategories.foldl (keywordStep req sname) score0

/-- Score of one service against the lowered/stripped request `req`
(`match_service_semantic`'s per-service score): 1000 for exact equality, 900
for substring containment either way, then keyword-category scores, then (only
when still below 500) ten points per meaningful common word after stop-word
removal. -/
def scoreService (req : String) (s : Service) : Nat :=
  let sname := pyStrip (pyToLower s.name)
  let score1 : Nat :=
    if req == sname then 1000
    else if isSubstrOf req sname || isSubstrOf sname req then 900
    else 0
  let score2 := keywordScore req sname score1
  if score2 < 500 then
    let meaningfulCommon :=
      ((pySplit sname).dedup.filter
        (fun word => (pySplit req).contains word && !(stopWords.contains word))).length
    if meaningfulCommon > 0 then max score2 (meaningfulCommon * 10) else score2
  else score2

/-- `scored_services.sort(reverse=True)` (stable) followed by taking the head:
the first entry attaining the maximal score. -/
def pickBest : List (Nat × Service) → Option Service
  | [] => none
  | x :: xs => some ((xs.foldl (fun b y => if y.1 > b.1 then y else b) x).2)

/-- Embeds `match_service_semantic` (tools.py): guard, score every service,
keep positive scores, return the first service with the maximal score. -/
def matchServiceSemantic (services : List Service) (serviceRequest : String) :
    Option Service :=
  if services.isEmpty || serviceRequest == "" then none
  else
    let req := pyStrip (pyToLower serviceRequest)
    let scored := services.filterMap
      (fun s => let sc := scoreService req s
                if sc > 0 then some (sc, s) else none)
    pickBest scored

/-! ## Field extraction helpers -/

/-- The `extracted` summary stored by `get_customer_profile`. -/
structure CustomerExtracted where
  customer_id : Option String
  customers : List Customer
  existing_pets : List Pet
  deriving Repr, DecidableEq

/-- Embeds `extract_customer_fields`: the first customer's id, the whole list,
and the concatenation of every customer's pets. -/
def extractCustomerFields (resp : List Customer) : CustomerExtracted :=
  { customer_id := resp.head?.map (fun c => c.id)
    customers := resp
    existing_pets := resp.foldl (fun acc c => acc ++ c.pets) [] }

/-- The `extracted` summary stored by `get_services` (the parts read back by
other tools: first service id, and whether the name→id map is nonempty). -/
structure ServiceExtracted where
  service_id : Option String
  service_map_nonempty : Bool
  deriving Repr, DecidableEq

/-- Embeds `extract_service_fields` (the fields other tools consume):
`service_id` is the first service's `id` when present; the service map has an
entry per service carrying an id (names model as always-present strings). -/
def extractServiceFields (resp : List Service) : ServiceExtracted :=
  { service_id := match resp.head? with
      | some s => s.id
      | none => none
    service_map_nonempty := resp.any (fun s => s.id.isSome) }

/-! ## Date fallback parser of `ensure_booking_exists`

The tool's last-resort parser handles "next weekend" (or "next saturday …
sunday") phrases: it computes the next Saturday from the current date and
scans the phrase for `(\d+)\s*(AM|PM)` time matches. `CURRENT_DATE` in
`config.py` is the wall-clock date, modeled as the `today` field of `World`.
-/

/-- A calendar date. -/
structure Date where
  year : Nat
  month : Nat
  day : Nat
  deriving Repr, DecidableEq

/-- Whether `y` is a leap year (Gregorian). -/
def isLeap (y : Nat) : Bool :=
  (y % 4 = 0 && y % 100 ≠ 0) || y % 400 = 0

/-- Days in month `m` of year `y`. -/
def daysInMonth (y m : Nat) : Nat :=
  if m = 2 then (if isLeap y then 29 else 28)
  else if m = 4 ∨ m = 6 ∨ m = 9 ∨ m = 11 then 30
  else 31

/-- The next calendar day. -/
def nextDay (d : Date) : Date :=
  if d.day < daysInMonth d.year d.month then { d with day := d.day + 1 }
  else if d.month < 12 then { year := d.year, month := d.month + 1, day := 1 }
  else { year := d.year + 1, month := 1, day := 1 }

/-- `d + n` days (`datetime.timedelta(days=n)`). -/
def addDays (d : Date) : Nat → Date
  | 0 => d
  | n + 1 => addDays (nextDay d) n

/-- Day of week with Monday = 0 (Python `datetime.weekday()`), via Sakamoto's
method. -/
def weekday (d : Date) : Nat :=
  let t : List Nat := [0, 3, 2, 5, 0, 3, 5, 1, 4, 6, 2, 4]
  let y := if d.month < 3 then d.year - 1 else d.year
  let sundayBased :=
    (y + y / 4 + y / 400 + t.getD (d.month - 1) 0 + d.day - y / 100) % 7
  (sundayBased + 6) % 7

/-- Zero-padded two-digit rendering (`f"{n:02d}"`). -/
def pad2 (n : Nat) : String :=
  if n < 10 then "0" ++ toString n else toString n

/-- Four-digit year rendering for `%Y`. -/
def pad4 (n : Nat) : String :=
  if n < 10 then "000" ++ toString n
  else if n < 100 then "00" ++ toString n
  else if n < 1000 then "0" ++ toString n
  else toString n

/-- `strftime("%Y-%m-%d")`. -/
def fmtDate (d : Date) : String :=
  pad4 d.year ++ "-" ++ pad2 d.month ++ "-" ++ pad2 d.day

/-- State of the `(\d+)\s*(AM|PM)` scanner: outside any candidate match,
inside a digit run, or after a digit run while skipping whitespace. -/
inductive ScanState where
  | idle
  | run (n : Nat)
  | afterRun (n : Nat)
  deriving Repr, DecidableEq

/-- Is `c` the letter A or P (case-insensitive)? Second component of the
returned pair below records PM (`true`) versus AM (`false`). -/
def isAmPmChar (c : Char) : Bool :=
  c = 'A' || c = 'a' || c = 'P' || c = 'p'

/-- Is `c` the letter P (case-insensitive)? -/
def isPmChar (c : Char) : Bool :=
  c = 'P' || c = 'p'

/-- Is `c` the letter M (case-insensitive)? -/
def isMChar (c : Char) : Bool :=
  c = 'M' || c = 'm'

/-- Scanner for `re.findall(r'(\d+)\s*(AM|PM)', phrase, re.IGNORECASE)`:
returns the matched `(hour-digits value, is PM)` pairs left to right. -/
def scanTimesAux : ScanState → List Char → List (Nat × Bool)
  | _, [] => []
  | ScanState.idle, c :: cs =>
    if c.isDigit then scanTimesAux (ScanState.run (c.toNat - 48)) cs
    else scanTimesAux ScanState.idle cs
  | ScanState.run n, c :: cs =>
    if c.isDigit then scanTimesAux (ScanState.run (n * 10 + (c.toNat - 48))) cs
    else if c.isWhitespace then scanTimesAux (ScanState.afterRun n) cs
    else if isAmPmChar c then
      match cs with
      | m :: rest =>
        if isMChar m then (n, isPmChar c) :: scanTimesAux ScanState.idle rest
        else scanTimesAux ScanState.idle (m :: rest)
      | [] => []
    else scanTimesAux ScanState.idle cs
  | ScanState.afterRun n, c :: cs =>
    if c.isDigit then scanTimesAux (ScanState.run (c.toNat - 48)) cs
    else if c.isWhitespace then scanTimesAux (ScanState.afterRun n) cs
    else if isAmPmChar c then
      match cs with
      | m :: rest =>
        if isMChar m then (n, isPmChar c) :: scanTimesAux ScanState.idle rest
        else scanTimesAux ScanState.idle (m :: rest)
      | [] => []
    else scanTimesAux ScanState.idle cs

/-- All `(\d+)\s*(AM|PM)` matches of a phrase. -/
def scanTimes (phrase : String) : List (Nat × Bool) :=
  scanTimesAux ScanState.idle phrase.data

/-- 12-hour to 24-hour conversion of the tool: PM adds 12 except at 12, AM
turns 12 into 0. -/
def convHour (h : Nat) (pm : Bool) : Nat :=
  if pm && h ≠ 12 then h + 12
  else if !pm && h = 12 then 0
  else h

/-- `f"{hour:02d}:00"`. -/
def fmtHour (h : Nat) : String := pad2 h ++ ":00"

/-- Trigger condition of the fallback branch: the lowered phrase contains
"next weekend", or contains both "next saturday" and "sunday". -/
def fallbackTrigger (datePhrase : String) : Bool :=
  let dpl := pyToLower datePhrase
  isSubstrOf "next weekend" dpl ||
    (isSubstrOf "next saturday" dpl && isSubstrOf "sunday" dpl)

/-- The fallback date parser inside `ensure_booking_exists`: when triggered it
returns the next Saturday/Sunday pair (relative to `today`) and up to two
parsed times; otherwise it leaves the dates unresolved (`none`). -/
def fallbackParseDates (today : Date) (datePhrase : String) :
    Option (String × String × Option String × Option String) :=
  if fallbackTrigger datePhrase then
    let wd := weekday today
    let daysUntilSaturday := (((5 : Int) - (wd : Int)) % 7).toNat
    let daysUntilSaturday :=
      if daysUntilSaturday = 0 then 7 else daysUntilSaturday
    let nextSaturday := addDays today daysUntilSaturday
    let nextSunday := addDays nextSaturday 1
    let times := scanTimes datePhrase
    let startTime := (times.head?).map (fun tm => fmtHour (convHour tm.1 tm.2))
    let endTime := ((times.drop 1).head?).map
      (fun tm => fmtHour (convHour tm.1 tm.2))
    some (fmtDate nextSaturday, fmtDate nextSunday, startTime, endTime)
  else none

/-! ## Session state, remote world, and API-call log -/

/-- The `date_result` record a date-calculation stage leaves in state
(the string-JSON variant parses to the same shape). -/
structure DateResultRec where
  start_date : Option String
  end_date : Option String
  start_time : Option String
  end_time : Option String
  deriving Repr, DecidableEq

/-- The `service_result.extracted` record cached by `ensure_service_matched`. -/
structure ServiceResultExtracted where
  service_id : Option String
  service_name : Option String
  service_rate_id : Option String
  service_rate : Option ℚ
  service_request : String
  deriving Repr, DecidableEq

/-- The per-session `tool_results` store: each field models one key (absent
key ↦ `none`).  `getCustomerProfile` holds the `extracted` summary;
`getServices` and `getBookings` hold the cached `full_response` lists. -/
structure SessionState where
  getCustomerProfile : Option CustomerExtracted
  getServices : Option (List Service)
  getBookings : Option (List Booking)
  serviceResult : Option ServiceResultExtracted
  dateResult : Option DateResultRec
  deriving Repr, DecidableEq

/-- A fresh session state (`tool_results` absent). -/
def emptyState : SessionState :=
  { getCustomerProfile := none, getServices := none, getBookings := none,
    serviceResult := none, dateResult := none }

/-- The remote system of record behind the API client, for one professional:
its customer, service and booking lists, the wall-clock date (`CURRENT_DATE`),
and a counter for freshly assigned ids. -/
structure World where
  customers : List Customer
  services : List Service
  bookings : List Booking
  today : Date
  nextId : Nat
  deriving Repr, DecidableEq

/-- One remote API call, as logged by the embedded tools. -/
inductive ApiCall where
  | listCustomers
  | createCustomer (c : Customer)
  | listServices
  | listBookings
  | createBooking (b : Booking)
  | updateBooking (id : String) (b : Booking)
  deriving Repr, DecidableEq

/-- Number of customer-creation calls in a log. -/
def countCustomerCreates (log : List ApiCall) : Nat :=
  (log.filter (fun c => match c with
    | ApiCall.createCustomer _ => true
    | _ => false)).length

/-- Number of remote write calls (creates and updates) in a log. -/
def countWrites (log : List ApiCall) : Nat :=
  (log.filter (fun c => match c with
    | ApiCall.createCustomer _ => true
    | ApiCall.createBooking _ => true
    | ApiCall.updateBooking _ _ => true
    | _ => false)).length

/-! ## Tool wrappers (the `async def` tools of tools.py) -/

/-- `get_customer_profile`: fetch the customer list, cache the extracted
summary in state. -/
def getCustomerProfileTool (st : SessionState) (w : World) :
    List Customer × SessionState × List ApiCall :=
  (w.customers,
   { st with getCustomerProfile := some (extractCustomerFields w.customers) },
   [ApiCall.listCustomers])

/-- The payload `ensure_customer_exists` submits to `create_customer`. -/
structure CustomerData where
  firstName : String
  lastName : String
  email : String
  phone : String
  professionalId : String
  deriving Repr, DecidableEq

/-- `create_customer`: dedup against the cached customer list by exact email
or phone; otherwise create remotely (the server assigns a fresh id and echoes
the submitted fields), append the result to the cached list and re-extract. -/
def createCustomerTool (st : SessionState) (w : World) (data : CustomerData) :
    Customer × SessionState × World × List ApiCall :=
  let dedup : Option Customer :=
    match st.getCustomerProfile with
    | some ext =>
      if data.email != "" || data.phone != "" then
        ext.customers.find? (fun c =>
          (data.email != "" && c.email == data.email) ||
            (data.phone != "" && c.phone == data.phone))
      else none
    | none => none
  match dedup with
  | some existing => (existing, st, w, [])
  | none =>
    let created : Customer :=
      { id := "new-" ++ toString w.nextId
        firstName := data.firstName
        lastName := data.lastName
        email := data.email
        phone := data.phone
        professionalId := data.professionalId
        pets := [] }
    let w1 :=
      { w with customers := w.customers ++ [created], nextId := w.nextId + 1 }
    let st1 := match st.getCustomerProfile with
      | some ext =>
        { st with
          getCustomerProfile := some (extractCustomerFields (ext.customers ++ [created])) }
      | none => st
    (created, st1, w1, [ApiCall.createCustomer created])

/-- The JSON result of `format_customer_result` / the insufficient-data and
error returns of `ensure_customer_exists`. -/
structure CustomerResult where
  customer_id : Option String
  status : String
  customer_name : String
  existing_pets : List Pet
  source : String
  deriving Repr, DecidableEq

/-- `format_customer_result`. -/
def formatCustomerResult (c : Customer) (status source : String) :
    CustomerResult :=
  { customer_id := some c.id
    status := status
    customer_name := pyStrip (c.firstName ++ " " ++ c.lastName)
    existing_pets := c.pets
    source := source }

/-- Embeds `ensure_customer_exists`: match against the cached list, else
fetch and match against the API list, else create when some identifying field
is present, else report `insufficient_data`. -/
def ensureCustomerExists (st : SessionState) (w : World)
    (professionalId : String)
    (customerName customerEmail customerPhone : Option String) :
    CustomerResult × SessionState × World × List ApiCall :=
  let stateMatch : Option Customer :=
    match st.getCustomerProfile with
    | some ext => matchCustomer ext.customers customerEmail customerPhone customerName
    | none => none
  match stateMatch with
  | some c => (formatCustomerResult c "found" "state", st, w, [])
  | none =>
    let (customers, st1, log1) := getCustomerProfileTool st w
    match matchCustomer customers customerEmail customerPhone customerName with
    | some c => (formatCustomerResult c "found" "api", st1, w, log1)
    | none =>
      if !otruthy customerName && !otruthy customerEmail && !otruthy customerPhone
      then
        ({ customer_id := none, status := "insufficient_data",
           customer_name := "", existing_pets := [], source := "api" },
         st1, w, log1)
      else
        let nameParts := pySplit (customerName.getD "")
        let data : CustomerData :=
          { firstName := nameParts.headD ""
            lastName := if nameParts.length > 1
              then pyJoin " " nameParts.tail else ""
            email := customerEmail.getD ""
            phone := customerPhone.getD ""
            professionalId := professionalId }
        let (created, st2, w2, log2) := createCustomerTool st1 w data
        (formatCustomerResult created "created" "api", st2, w2, log1 ++ log2)

/-- `get_services`: fetch the service list and cache it. -/
def getServicesTool (st : SessionState) (w : World) :
    List Service × SessionState × List ApiCall :=
  (w.services, { st with getServices := some w.services },
   [ApiCall.listServices])

/-- The JSON result of `match_service`. -/
structure MatchServiceResult where
  matched_service_id : Option String
  service_name : Option String
  service_rate_id : Option String
  service_rate : Option ℚ
  available_services : List String
  deriving Repr, DecidableEq

/-- Embeds `match_service`: the cached `get_services` full response when
present and nonempty, else a fetch; then semantic matching and extraction of
the rate id and amount (the nested `serviceRate.amount` backs up a null
top-level `amount`). -/
def matchServiceTool (st : SessionState) (w : World) (serviceRequest : String) :
    MatchServiceResult × SessionState × List ApiCall :=
  let cached := (st.getServices).getD []
  let fetched :=
    if cached.isEmpty then getServicesTool st w else (cached, st, [])
  let services := fetched.1
  let st1 := fetched.2.1
  let log1 := fetched.2.2
  if services.isEmpty then
    ({ matched_service_id := none, service_name := none,
       service_rate_id := none, service_rate := none,
       available_services := [] }, st1, log1)
  else
    let availableNames := services.filterMap
      (fun s => if s.name != "" then some s.name else none)
    match matchServiceSemantic services serviceRequest with
    | some matched =>
      let serviceRateId := match matched.serviceRate with
        | some r => r.id
        | none => none
      let serviceRate := match matched.amount with
        | some a => some a
        | none =>
          match matched.serviceRate with
          | some r => r.amount
          | none => none
      ({ matched_service_id := matched.id, service_name := some matched.name,
         service_rate_id := serviceRateId, service_rate := serviceRate,
         available_services := availableNames }, st1, log1)
    | none =>
      ({ matched_service_id := none, service_name := none,
         service_rate_id := none, service_rate := none,
         available_services := availableNames }, st1, log1)

/-- The JSON result of `format_service_result`. -/
structure ServiceResult where
  service_id : Option String
  professional_id : String
  service_name : Option String
  service_rate_id : Option String
  service_rate : Option ℚ
  status : String
  source : String
  deriving Repr, DecidableEq

/-- Embeds `ensure_service_matched`: cached-result fast path keyed by the
same request phrase, semantic matching, the `not_found` and `rate_missing`
terminal checks, and caching of a successful match. -/
def ensureServiceMatched (st : SessionState) (w : World)
    (professionalId serviceRequest : String) :
    ServiceResult × SessionState × List ApiCall :=
  let cacheHit : Option ServiceResultExtracted :=
    match st.serviceResult with
    | some se =>
      if otruthy se.service_id && se.service_request == serviceRequest
      then some se else none
    | none => none
  match cacheHit with
  | some se =>
    ({ service_id := se.service_id, professional_id := professionalId,
       service_name := se.service_name,
       service_rate_id := se.service_rate_id, service_rate := se.service_rate,
       status := "found", source := "state" }, st, [])
  | none =>
    let (mr, st1, log1) := matchServiceTool st w serviceRequest
    if !otruthy mr.matched_service_id then
      ({ service_id := none, professional_id := professionalId,
         service_name := none, service_rate_id := none,
         service_rate := none, status := "not_found", source := "api" },
       st1, log1)
    else if !otruthy mr.service_rate_id then
      ({ service_id := mr.matched_service_id, professional_id := professionalId,
         service_name := mr.service_name,
         service_rate_id := none, service_rate := mr.service_rate,
         status := "rate_missing", source := "api" }, st1, log1)
    else
      let cacheEntry : ServiceResultExtracted :=
        { service_id := mr.matched_service_id
          service_name := mr.service_name
          service_rate_id := mr.service_rate_id
          service_rate := mr.service_rate
          service_request := serviceRequest }
      let st2 := { st1 with serviceResult := some cacheEntry }
      ({ service_id := mr.matched_service_id, professional_id := professionalId,
         service_name := mr.service_name,
         service_rate_id := mr.service_rate_id, service_rate := mr.service_rate,
         status := "matched", source := "api" }, st2, log1)

/-- `get_bookings`: fetch the booking list and cache it. -/
def getBookingsTool (st : SessionState) (w : World) :
    List Booking × SessionState × List ApiCall :=
  (w.bookings, { st with getBookings := some w.bookings },
   [ApiCall.listBookings])

/-- Replace the first booking carrying `bookingId` (the cache-update loop of
`create_booking`/`update_booking` breaks after the first hit). -/
def replaceFirstById (bookingId : String) (nb : Booking) :
    List Booking → List Booking
  | [] => []
  | b :: rest =>
    if b.id == bookingId then nb :: rest
    else b :: replaceFirstById bookingId nb rest

/-- Embeds `create_booking`: fill a missing `clientId`/`serviceId` from
state, create remotely (the server assigns a fresh id and schedules the
booking), and append the result to the cached booking list. -/
def createBookingTool (st : SessionState) (w : World) (bd0 : Booking) :
    Booking × SessionState × World × List ApiCall :=
  let bd1 :=
    if !otruthy bd0.clientId then
      match st.getCustomerProfile with
      | some ext =>
        if otruthy ext.customer_id then { bd0 with clientId := ext.customer_id }
        else bd0
      | none => bd0
    else bd0
  let bd2 :=
    if !otruthy bd1.serviceId then
      match st.getServices with
      | some svcs =>
        let ext := extractServiceFields svcs
        if ext.service_map_nonempty && otruthy ext.service_id then
          { bd1 with serviceId := ext.service_id }
        else bd1
      | none => bd1
    else bd1
  let created := { bd2 with id := "bk-" ++ toString w.nextId, status := "scheduled" }
  let w1 :=
    { w with bookings := w.bookings ++ [created], nextId := w.nextId + 1 }
  let st1 := { st with getBookings := some ((st.getBookings).getD [] ++ [created]) }
  (created, st1, w1, [ApiCall.createBooking bd2])

/-- The merge loop of `update_booking`: keys of the cached booking replace
fields that the submitted payload leaves `None` (all keys are present in the
payload, which is a full booking object). -/
def mergeFromCached (bd cached : Booking) : Booking :=
  { id := bd.id
    clientId := match bd.clientId with | some v => some v | none => cached.clientId
    serviceId := match bd.serviceId with | some v => some v | none => cached.serviceId
    serviceRateId :=
      match bd.serviceRateId with | some v => some v | none => cached.serviceRateId
    professionalId :=
      match bd.professionalId with | some v => some v | none => cached.professionalId
    startDate := match bd.startDate with | some v => some v | none => cached.startDate
    endDate := match bd.endDate with | some v => some v | none => cached.endDate
    startTime := match bd.startTime with | some v => some v | none => cached.startTime
    endTime := match bd.endTime with | some v => some v | none => cached.endTime
    status := bd.status
    bookingPets := bd.bookingPets
    notes := match bd.notes with | some v => some v | none => cached.notes }

/-- Embeds `update_booking`: merge from the cached copy, fill missing
`clientId`/`serviceId` from state, update remotely, and refresh the cache. -/
def updateBookingTool (st : SessionState) (w : World) (bookingId : String)
    (bd0 : Booking) : Booking × SessionState × World × List ApiCall :=
  let bd1 :=
    match st.getBookings with
    | some bs =>
      match bs.find? (fun b => b.id == bookingId) with
      | some cached => mergeFromCached bd0 cached
      | none => bd0
    | none => bd0
  let bd2 :=
    if !otruthy bd1.clientId then
      match st.getCustomerProfile with
      | some ext =>
        if otruthy ext.customer_id then { bd1 with clientId := ext.customer_id }
        else bd1
      | none => bd1
    else bd1
  let bd3 :=
    if !otruthy bd2.serviceId then
      match st.getServices with
      | some svcs =>
        if otruthy (extractServiceFields svcs).service_id then
          { bd2 with serviceId := (extractServiceFields svcs).service_id }
        else bd2
      | none => bd2
    else bd2
  let result := { bd3 with id := bookingId }
  let w1 :=
    { w with bookings := replaceFirstById bookingId result w.bookings }
  let st1 :=
    match st.getBookings with
    | some bs =>
      { st with getBookings := some (replaceFirstById bookingId result bs) }
    | none => st
  (result, st1, w1, [ApiCall.updateBooking bookingId bd3])

/-! ## Booking resolution stage (`ensure_booking_exists`) -/

/-- The JSON result of `ensure_booking_exists`. -/
structure BookingResult where
  customer_id : Option String
  professional_id : String
  pet_ids : List String
  matched_service_id : Option String
  service_name : Option String
  service_rate_id : Option String
  service_rate : Option ℚ
  start_date : Option String
  end_date : Option String
  start_time : Option String
  end_time : Option String
  existing_booking_found : String
  existing_booking_id : Option String
  action_taken : String
  booking_id : Option String
  status : String
  deriving Repr, DecidableEq

/-- The customer/pet precondition block of `ensure_booking_exists`: the
customer id from state, the pet ids (truthy ids of the FIRST cached
customer's pets), and the professional id taken from the first cached
customer when present. -/
def bookingStateCustomer (st : SessionState) (professionalId : String) :
    Option String × List String × String :=
  match st.getCustomerProfile with
  | some ext =>
    let customerId := ext.customer_id
    match ext.customers with
    | first :: _ =>
      (customerId,
       first.pets.filterMap (fun p =>
         match p.id with
         | some pid => if pid != "" then some pid else none
         | none => none),
       first.professionalId)
    | [] => (customerId, [], professionalId)
  | none => (none, [], professionalId)

/-- Python `a or b` on optional strings: keep `a` when truthy. -/
def orKeep (a b : Option String) : Option String :=
  if otruthy a then a else b

/-- The date block of `ensure_booking_exists`: the explicit arguments,
overlaid by a `date_result` found in state, then the fallback phrase parser
when no start date is resolved yet. -/
def resolveDates (st : SessionState) (today : Date) (datePhrase : String)
    (startDate endDate startTime endTime : Option String) :
    Option String × Option String × Option String × Option String :=
  let afterState :=
    match st.dateResult with
    | some dr =>
      (orKeep dr.start_date startDate, orKeep dr.end_date endDate,
       orKeep dr.start_time startTime, orKeep dr.end_time endTime)
    | none => (startDate, endDate, startTime, endTime)
  match afterState with
  | (csd, ced, cst, cet) =>
    if !otruthy csd && datePhrase != "" then
      match fallbackParseDates today datePhrase with
      | some (sd, ed, stT, etT) =>
        (some sd, some ed,
         (match stT with | some v => some v | none => cst),
         (match etT with | some v => some v | none => cet))
      | none => (csd, ced, cst, cet)
    else (csd, ced, cst, cet)

/-- The placeholder block: when no start date was resolved, substitute
`2024-01-01`, `2024-01-01`, `00:00`, `23:59`. -/
def finalizeDates :
    Option String × Option String × Option String × Option String →
      Option String × Option String × Option String × Option String
  | (csd, ced, cst, cet) =>
    if !otruthy csd then
      (some "2024-01-01", some "2024-01-01", some "00:00", some "23:59")
    else (csd, ced, cst, cet)

/-- The conflict-detection scan of `ensure_booking_exists` over the cached
booking list: first booking whose `clientId` equals the resolved customer id,
whose pet-id set equals the requested pet-id set, and whose status is
"scheduled". -/
def findExistingBooking (bookings : List Booking) (customerId : Option String)
    (petIds : List String) : Option Booking :=
  bookings.find? (fun b =>
    b.clientId == customerId &&
    (setEq (petIds.map (fun pid => some pid))
        (b.bookingPets.map (fun p => p.petId)) &&
      b.status == "scheduled"))

/-- The early-return results of `ensure_booking_exists` (insufficient data /
rate missing / creation error): nulls except the already-resolved fields. -/
def bookingFailResult (customerId : Option String) (profId : String)
    (petIds : List String) (msid sname srid : Option String)
    (srate : Option ℚ) (status : String) : BookingResult :=
  { customer_id := customerId
    professional_id := profId
    pet_ids := petIds
    matched_service_id := msid
    service_name := sname
    service_rate_id := srid
    service_rate := srate
    start_date := none, end_date := none, start_time := none, end_time := none
    existing_booking_found := "not_found"
    existing_booking_id := none
    action_taken := "error"
    booking_id := none
    status := status }

/-- The create block at the end of `ensure_booking_exists`: assemble the
booking payload from the resolved identifiers and dates and issue the remote
create call (`extraPetFee`/`weekendFee` are the constant 0 and are not
modeled). -/
def bookingCreatePath (st : SessionState) (w : World)
    (customerId : Option String) (petIds : List String) (profId : String)
    (msid sname srid : Option String) (srate : Option ℚ)
    (fsd fed fst fet : Option String) (notes : Option String)
    (log0 : List ApiCall) :
    BookingResult × SessionState × World × List ApiCall :=
  let bookingData : Booking :=
    { id := ""
      clientId := customerId
      serviceId := msid
      serviceRateId := srid
      professionalId := some profId
      startDate := fsd
      endDate := fed
      startTime := fst
      endTime := fet
      status := ""
      bookingPets := petIds.map (fun pid => { petId := some pid })
      notes := some (notes.getD "") }
  let cb := createBookingTool st w bookingData
  ({ customer_id := customerId
     professional_id := profId
     pet_ids := petIds
     matched_service_id := msid
     service_name := sname
     service_rate_id := srid
     service_rate := srate
     start_date := cb.1.startDate
     end_date := cb.1.endDate
     start_time := cb.1.startTime
     end_time := cb.1.endTime
     existing_booking_found := "not_found"
     existing_booking_id := none
     action_taken := "created"
     booking_id := some cb.1.id
     status := "created" },
   cb.2.1, cb.2.2.1, log0 ++ cb.2.2.2)

/-- Embeds `ensure_booking_exists`: precondition checks on state
(customer/pets, service id, rate id), date resolution with placeholders,
conflict detection against the cached bookings, then the update path (refetch
bookings, overwrite the changed fields, remote update) or the create path. -/
def ensureBookingExists (st : SessionState) (w : World)
    (professionalId datePhrase : String)
    (notes startDate endDate startTime endTime : Option String) :
    BookingResult × SessionState × World × List ApiCall :=
  match bookingStateCustomer st professionalId with
  | (customerId, petIds, profId) =>
    if !otruthy customerId || petIds.isEmpty then
      (bookingFailResult customerId profId petIds none none none none
        "insufficient_data", st, w, [])
    else
      let svc := match st.serviceResult with
        | some se => (se.service_id, se.service_name, se.service_rate_id,
                      se.service_rate)
        | none => (none, none, none, none)
      match svc with
      | (msid, sname, srid, srate) =>
        if !otruthy msid then
          (bookingFailResult customerId profId petIds none none none none
            "insufficient_data", st, w, [])
        else if !otruthy srid then
          (bookingFailResult customerId profId petIds msid sname none srate
            "rate_missing", st, w, [])
        else
          match finalizeDates (resolveDates st w.today datePhrase
              startDate endDate startTime endTime) with
          | (fsd, fed, fst, fet) =>
            let existing := match st.getBookings with
              | some bs => findExistingBooking bs customerId petIds
              | none => none
            match existing with
            | some eb =>
              if eb.id != "" then
                let gb := getBookingsTool st w
                match gb.1.find? (fun b => b.id == eb.id) with
                | some fetched =>
                  let b1 := if otruthy fsd && otruthy fed
                    then { fetched with startDate := fsd, endDate := fed }
                    else fetched
                  let b2 := if otruthy fst then { b1 with startTime := fst } else b1
                  let b3 := if otruthy fet then { b2 with endTime := fet } else b2
                  let b4 := if otruthy notes then { b3 with notes := notes } else b3
                  let ub := updateBookingTool gb.2.1 w eb.id b4
                  ({ customer_id := customerId
                     professional_id := profId
                     pet_ids := petIds
                     matched_service_id := msid
                     service_name := sname
                     service_rate_id := srid
                     service_rate := srate
                     start_date := orKeep fsd b4.startDate
                     end_date := orKeep fed b4.endDate
                     start_time := orKeep fst b4.startTime
                     end_time := orKeep fet b4.endTime
                     existing_booking_found := "found_via_api"
                     existing_booking_id := some eb.id
                     action_taken := "updated"
                     booking_id := some eb.id
                     status := "updated" },
                   ub.2.1, ub.2.2.1, gb.2.2 ++ ub.2.2.2)
                | none =>
                  bookingCreatePath gb.2.1 w customerId petIds profId msid sname
                    srid srate fsd fed fst fet notes gb.2.2
              else
                bookingCreatePath st w customerId petIds profId msid sname
                  srid srate fsd fed fst fet notes []
            | none =>
              bookingCreatePath st w customerId petIds profId msid sname
                srid srate fsd fed fst fet notes []

/-! ## Auxiliary comparison and example data for concrete theorems -/

/-- Lexicographic `≤` on character lists (Python string comparison). -/
def charListLe : List Char → List Char → Bool
  | [], _ => true
  | _ :: _, [] => false
  | a :: as, b :: bs => if a = b then charListLe as bs else decide (a < b)

/-- Python `a <= b` on strings; on ISO dates this is chronological order. -/
def pyStrLe (a b : String) : Bool := charListLe a.data b.data

/-- The overlap condition of the specification:
`requestedStart ≤ existingEnd AND requestedEnd ≥ existingStart`. -/
def datesOverlap (reqStart reqEnd exStart exEnd : String) : Bool :=
  pyStrLe reqStart exEnd && pyStrLe exStart reqEnd

/-- Number of booking-creation calls in a log. -/
def countBookingCreates (log : List ApiCall) : Nat :=
  (log.filter (fun c => match c with
    | ApiCall.createBooking _ => true
    | _ => false)).length

/-- Example pet Bella. -/
def exPetBella : Pet :=
  { id := some "p1", name := "Bella", species := "Dog",
    breed := some "Golden Retriever", gender := some "Female" }

/-- Example customer Alice with pet Bella. -/
def exCustomerAlice : Customer :=
  { id := "c1", firstName := "Alice", lastName := "Smith",
    email := "a@x.com", phone := "111", professionalId := "prof-1",
    pets := [exPetBella] }

/-- Example second customer Bob. -/
def exCustomerBob : Customer :=
  { id := "c2", firstName := "Bob", lastName := "Jones",
    email := "b@y.com", phone := "222", professionalId := "prof-1",
    pets := [] }

/-- Example scheduled booking for Alice and Bella, Dec 1–3 2024. -/
def exBookingDec : Booking :=
  { id := "b1", clientId := some "c1", serviceId := some "s-ps",
    serviceRateId := some "r-ps", professionalId := some "prof-1",
    startDate := some "2024-12-01", endDate := some "2024-12-03",
    startTime := some "09:00", endTime := some "17:00",
    status := "scheduled", bookingPets := [{ petId := some "p1" }],
    notes := some "" }

/-- Example "Dog Walking" service with a configured rate. -/
def exServiceDW : Service :=
  { id := some "s-dw", name := "Dog Walking", amount := some 30,
    serviceRate := some { id := some "r-dw", amount := some 30 } }

/-- Example "Pet Sitting" service with a configured rate. -/
def exServicePS : Service :=
  { id := some "s-ps", name := "Pet Sitting", amount := some 50,
    serviceRate := some { id := some "r-ps", amount := some 50 } }

/-- Example "Pet Grooming" service with a configured rate. -/
def exServicePG : Service :=
  { id := some "s-pg", name := "Pet Grooming", amount := some 40,
    serviceRate := some { id := some "r-pg", amount := some 40 } }

/-- Example cached service-stage result for "Pet Sitting". -/
def exServiceResultPS : ServiceResultExtracted :=
  { service_id := some "s-ps", service_name := some "Pet Sitting",
    service_rate_id := some "r-ps", service_rate := some 50,
    service_request := "pet sitting" }

/-- Example session state after the customer, pet and service stages, with
the professional's bookings cached. -/
def exStateBooking : SessionState :=
  { getCustomerProfile := some (extractCustomerFields [exCustomerAlice])
    getServices := none
    getBookings := some [exBookingDec]
    serviceResult := some exServiceResultPS
    dateResult := none }

/-- Example remote world matching `exStateBooking`. -/
def exWorldBooking : World :=
  { customers := [exCustomerAlice], services := [exServiceDW, exServicePS],
    bookings := [exBookingDec],
    today := { year := 2024, month := 12, day := 2 }, nextId := 0 }

/-- The booking run of claim C1's failing input: same customer, same pet
set, but a requested range (2025-06-01 .. 2025-06-02) that does not overlap
the existing booking's range (2024-12-01 .. 2024-12-03). -/
def c1Run : BookingResult × SessionState × World × List ApiCall :=
  ensureBookingExists exStateBooking exWorldBooking "prof-1" "June trip"
    none (some "2025-06-01") (some "2025-06-02") (some "09:00") (some "17:00")

/-- C1: booking conflict detection is claimed to classify a request as an
update only when the requested date range overlaps the existing booking's
range. The code's scan checks only client id, pet set and "scheduled" status,
never the dates: for a request whose range (2025-06-01..02) does not overlap
the cached scheduled booking (2024-12-01..03) it still takes the update path
(action_taken "updated", remote update call issued, no create), where the
claim requires a new booking. -/
theorem C1_conflict_detection_ignores_dates :
    datesOverlap "2025-06-01" "2025-06-02"
      ((exBookingDec.startDate).getD "") ((exBookingDec.endDate).getD "") = false
    ∧ c1Run.1.action_taken = "updated"
    ∧ c1Run.1.existing_booking_id = some "b1"
    ∧ c1Run.1.status = "updated"
    ∧ countWrites c1Run.2.2.2 = 1
    ∧ countBookingCreates c1Run.2.2.2 = 0 := by
  refine ⟨?_, ?_, ?_, ?_, ?_, ?_⟩ <;> rfl

/-- The booking run of claim C2's failing input: resubmission of exactly the
dates, times and notes already on the matched existing booking. -/
def c2Run : BookingResult × SessionState × World × List ApiCall :=
  ensureBookingExists exStateBooking exWorldBooking "prof-1" "same dates"
    none (some "2024-12-01") (some "2024-12-03") (some "09:00") (some "17:00")

/-- C2: when the resubmitted details are all identical to the matched
existing booking, the claim (and the repository's own prompt documentation)
requires `action_taken="no_changes"` with zero remote writes. The code has no
no-changes check: it reports "updated" and issues one remote write call. -/
theorem C2_identical_resubmission_still_writes :
    (some "2024-12-01" = exBookingDec.startDate
      ∧ some "2024-12-03" = exBookingDec.endDate
      ∧ some "09:00" = exBookingDec.startTime
      ∧ some "17:00" = exBookingDec.endTime)
    ∧ c2Run.1.action_taken = "updated"
    ∧ countWrites c2Run.2.2.2 = 1 := by
  refine ⟨⟨?_, ?_, ?_, ?_⟩, ?_, ?_⟩ <;> rfl

/-! ## Claims C4 and C5: customer resolution without identifiers, and
customer matching priority -/

/-- With no identifying fields, no candidate satisfies any criterion. -/
theorem matchCustomer_no_identifiers (customers : List Customer) :
    matchCustomer customers none none none = none := by
  induction customers with
  | nil => rfl
  | cons c rest ih =>
    simpa [matchCustomer, emailMatches, phoneMatches, nameMatches] using ih

/-- Example world holding one remote customer and no services/bookings. -/
def exWorldCustomers : World :=
  { customers := [exCustomerAlice], services := [], bookings := [],
    today := { year := 2024, month := 12, day := 2 }, nextId := 0 }

/-- The customer-resolution run of claim C4's counterexample: name, email and
phone all absent. -/
def c4Run : CustomerResult × SessionState × World × List ApiCall :=
  ensureCustomerExists emptyState exWorldCustomers "prof-1" none none none

/-- C4 (counterexample): with name, email and phone all absent, the claim
says no network call is attempted; the code does return
`status="insufficient_data"`, but only after issuing the customer-list fetch,
so the call log is nonempty. -/
theorem C4_counterexample_list_fetch_attempted :
    c4Run.1.status = "insufficient_data" ∧ c4Run.2.2.2 ≠ ([] : List ApiCall) := by
  exact ⟨rfl, by decide⟩

/-- C4 (amended): with name, email and phone all absent, customer resolution
returns `status="insufficient_data"` with no customer id and attempts no
customer-create call — but it does perform exactly one customer-list fetch
(the state match cannot succeed without identifiers, so the fetch is
unconditional). -/
theorem C4_amended_insufficient_data_no_create (st : SessionState) (w : World)
    (pid : String) :
    (ensureCustomerExists st w pid none none none).1.status = "insufficient_data"
    ∧ (ensureCustomerExists st w pid none none none).1.customer_id = none
    ∧ (ensureCustomerExists st w pid none none none).2.2.2 = [ApiCall.listCustomers] := by
  unfold ensureCustomerExists getCustomerProfileTool
  cases h : st.getCustomerProfile <;>
    simp [matchCustomer_no_identifiers, otruthy]

/-- C4's amended theorem at a concrete input (instantiating the universals). -/
theorem C4_amended_insufficient_data_no_create_witness :
    (ensureCustomerExists emptyState exWorldCustomers "prof-1" none none none).1.status
      = "insufficient_data" := by
  exact (C4_amended_insufficient_data_no_create emptyState exWorldCustomers "prof-1").1

/-- The per-candidate disjunction `match_customer` actually applies. -/
def customerMatchesAny (email phone name : Option String) (c : Customer) : Bool :=
  emailMatches email c || phoneMatches phone c || nameMatches name c

/-- C5 (counterexample): the claim gives email matches priority across the
whole candidate list. With Alice (phone `111`) listed before Bob (email
`b@y.com`) and both an email (`b@y.com`, matching only Bob) and a phone
(`111`, matching only Alice) supplied, the code returns Alice — the first
candidate matching any criterion — not the email match Bob required by the
claim. -/
theorem C5_counterexample_phone_beats_later_email :
    matchCustomer [exCustomerAlice, exCustomerBob]
        (some "b@y.com") (some "111") none = some exCustomerAlice
    ∧ emailMatches (some "b@y.com") exCustomerBob = true
    ∧ emailMatches (some "b@y.com") exCustomerAlice = false := by
  refine ⟨?_, ?_, ?_⟩ <;> decide

/-- `match_customer` equals a first-match scan with the per-candidate
disjunction (shared helper). -/
theorem matchCustomer_eq_find (customers : List Customer)
    (email phone name : Option String) :
    matchCustomer customers email phone name =
      customers.find? (customerMatchesAny email phone name) := by
  induction customers with
  | nil => rfl
  | cons c rest ih =>
    rw [matchCustomer, List.find?]
    cases hE : emailMatches email c <;>
      cases hP : phoneMatches phone c <;>
        cases hN : nameMatches name c <;>
          simp [customerMatchesAny, hE, hP, hN, ih]

/-- C5 (amended): customer matching scans the candidates in list order and
returns the first candidate that matches by email (case-insensitive, both
sides nonempty), or by exact phone, or by the bidirectional-substring name
rule — the email/phone/name priority applies within each candidate, not
across the whole list — and `none` when no candidate matches. -/
theorem C5_amended_first_candidate_any_criterion (customers : List Customer)
    (email phone name : Option String) :
    matchCustomer customers email phone name =
      customers.find? (customerMatchesAny email phone name) :=
  matchCustomer_eq_find customers email phone name

/-! ## Claim C7: service scoring -/

/-- A keyword step never lowers the score. -/
theorem keywordStep_ge (req sname : String) (sc : Nat)
    (cat : String × List String) : sc ≤ keywordStep req sname sc cat := by
  unfold keywordStep
  dsimp only
  repeat' split
  all_goals first
    | exact Nat.le_max_left _ _
    | exact Nat.le_refl _

/-- A keyword step is bounded by the category's best possible score. -/
theorem keywordStep_le (req sname : String) (sc : Nat)
    (cat : String × List String) :
    keywordStep req sname sc cat ≤ max sc (500 + cat.2.length * 10) := by
  unfold keywordStep
  dsimp only
  repeat' split
  all_goals first
    | exact Nat.le_max_left _ _
    | (rename_i idx heq
       refine max_le_iff.mpr ⟨Nat.le_max_left _ _, ?_⟩
       refine le_trans ?_ (Nat.le_max_right _ _)
       have hmul : (cat.2.length - idx) * 10 ≤ cat.2.length * 10 :=
         Nat.mul_le_mul_right _ (Nat.sub_le _ _)
       omega)

/-- The keyword loop never lowers the score. -/
theorem keywordScore_ge (req sname : String) (sc : Nat) :
    sc ≤ keywordScore req sname sc := by
  unfold keywordScore keywordCategories
  simp only [List.foldl]
  calc sc ≤ keywordStep req sname sc ("pet sitting", petSittingKeywords) :=
        keywordStep_ge _ _ _ _
    _ ≤ keywordStep req sname _ ("dog walking", dogWalkingKeywords) :=
        keywordStep_ge _ _ _ _
    _ ≤ keywordStep req sname _ ("grooming", groomingKeywords) :=
        keywordStep_ge _ _ _ _

/-- The keyword loop is bounded by `max sc 720` (the best keyword score is
`500 + 22·10 = 720`, from the 22-entry pet-sitting list). -/
theorem keywordScore_le (req sname : String) (sc : Nat) :
    keywordScore req sname sc ≤ max sc 720 := by
  unfold keywordScore keywordCategories
  simp only [List.foldl]
  have h1 := keywordStep_le req sname sc ("pet sitting", petSittingKeywords)
  have h2 := keywordStep_le req sname
    (keywordStep req sname sc ("pet sitting", petSittingKeywords))
    ("dog walking", dogWalkingKeywords)
  have h3 := keywordStep_le req sname
    (keywordStep req sname
      (keywordStep req sname sc ("pet sitting", petSittingKeywords))
      ("dog walking", dogWalkingKeywords))
    ("grooming", groomingKeywords)
  have l1 : petSittingKeywords.length = 22 := by decide
  have l2 : dogWalkingKeywords.length = 10 := by decide
  have l3 : groomingKeywords.length = 15 := by decide
  simp only [l1, l2, l3] at h1 h2 h3
  omega

/-- Exact phrase equality scores 1000. -/
theorem scoreService_exact (req : String) (s : Service)
    (h : pyStrip (pyToLower s.name) = req) : scoreService req s = 1000 := by
  unfold scoreService
  simp only [h]
  have hge := keywordScore_ge req req 1000
  have hle := keywordScore_le req req 1000
  have hk : keywordScore req req 1000 = 1000 := by omega
  simp [hk]

/-- Substring containment (without equality) scores 900. -/
theorem scoreService_substr (req : String) (s : Service)
    (hne : ¬ (req == pyStrip (pyToLower s.name)))
    (h : isSubstrOf req (pyStrip (pyToLower s.name)) = true
      ∨ isSubstrOf (pyStrip (pyToLower s.name)) req = true) :
    scoreService req s = 900 := by
  unfold scoreService
  have hsub : (isSubstrOf req (pyStrip (pyToLower s.name)) ||
      isSubstrOf (pyStrip (pyToLower s.name)) req) = true := by
    rcases h with h | h <;> simp [h]
  simp only [hne, hsub, if_false, if_true, Bool.not_eq_true]
  have hge := keywordScore_ge req (pyStrip (pyToLower s.name)) 900
  have hle := keywordScore_le req (pyStrip (pyToLower s.name)) 900
  have hk : keywordScore req (pyStrip (pyToLower s.name)) 900 = 900 := by omega
  simp [hne, hk]

/-- The max-tracking fold of `pickBest` returns an element of the inputs. -/
theorem pickFold_mem (xs : List (Nat × Service)) (acc : Nat × Service) :
    xs.foldl (fun b y => if y.1 > b.1 then y else b) acc ∈ acc :: xs := by
  induction xs generalizing acc with
  | nil => simp
  | cons y ys ih =>
    simp only [List.foldl]
    by_cases h : y.1 > acc.1
    · simp only [if_pos h]
      rcases (List.mem_cons).mp (ih y) with h' | h'
      · simp [h']
      · simp [List.mem_cons, Or.inr (Or.inr h')]
    · simp only [if_neg h]
      rcases (List.mem_cons).mp (ih acc) with h' | h'
      · simp [h']
      · simp [List.mem_cons, Or.inr (Or.inr h')]

/-- The max-tracking fold of `pickBest` dominates all inputs. -/
theorem pickFold_ge (xs : List (Nat × Service)) (acc : Nat × Service) :
    ∀ z ∈ acc :: xs,
      z.1 ≤ (xs.foldl (fun b y => if y.1 > b.1 then y else b) acc).1 := by
  induction xs generalizing acc with
  | nil => intro z hz; simp at hz; simp [hz]
  | cons y ys ih =>
    intro z hz
    rcases (List.mem_cons).mp hz with rfl | hz'
    · simp only [List.foldl]
      by_cases h : y.1 > z.1
      · have := ih y y (by simp)
        simp only [if_pos h]
        omega
      · have := ih z z (by simp)
        simp only [if_neg h]
        omega
    · rcases (List.mem_cons).mp hz' with rfl | hz''
      · simp only [List.foldl]
        by_cases h : z.1 > acc.1
        · have := ih z z (by simp)
          simp only [if_pos h]
          omega
        · have := ih acc acc (by simp)
          simp only [if_neg h]
          omega
      · simp only [List.foldl]
        by_cases h : y.1 > acc.1
        · have := ih y z (by simp [hz''])
          simp only [if_pos h]
          omega
        · have := ih acc z (by simp [hz''])
          simp only [if_neg h]
          omega

/-- Soundness of `match_service_semantic`: a returned service is one of the
inputs, scores positively, and its score dominates every input's score. -/
theorem matchServiceSemantic_sound (services : List Service) (request : String)
    (s : Service) (h : matchServiceSemantic services request = some s) :
    s ∈ services ∧ 0 < scoreService (pyStrip (pyToLower request)) s ∧
      ∀ t ∈ services,
        scoreService (pyStrip (pyToLower request)) t ≤
          scoreService (pyStrip (pyToLower request)) s := by
  unfold matchServiceSemantic at h
  by_cases hg : (services.isEmpty || request == "") = true
  · rw [if_pos hg] at h
    exact absurd h (by simp)
  · rw [if_neg hg] at h
    dsimp only at h
    rcases hsc : services.filterMap
        (fun t => if scoreService (pyStrip (pyToLower request)) t > 0
          then some (scoreService (pyStrip (pyToLower request)) t, t)
          else none) with _ | ⟨x, xs⟩
    · rw [hsc] at h
      exact absurd h (by simp [pickBest])
    · rw [hsc] at h
      unfold pickBest at h
      have hmem := pickFold_mem xs x
      have hge := pickFold_ge xs x
      set r := xs.foldl (fun b y => if y.1 > b.1 then y else b) x with hr
      have hs : r.2 = s := by simpa using h
      have hrmem : r ∈ services.filterMap
          (fun t => if scoreService (pyStrip (pyToLower request)) t > 0
            then some (scoreService (pyStrip (pyToLower request)) t, t)
            else none) := by rw [hsc]; exact hmem
      rw [List.mem_filterMap] at hrmem
      rcases hrmem with ⟨a, ha, hfa⟩
      by_cases hpos : scoreService (pyStrip (pyToLower request)) a > 0
      · rw [if_pos hpos] at hfa
        have hra : (scoreService (pyStrip (pyToLower request)) a, a) = r := by
          simpa using hfa
        have hs2 : a = s := by rw [← hs, ← hra]
        subst hs2
        refine ⟨ha, hpos, ?_⟩
        intro t ht
        by_cases hpt : scoreService (pyStrip (pyToLower request)) t > 0
        · have htm : (scoreService (pyStrip (pyToLower request)) t, t) ∈
              services.filterMap
                (fun u => if scoreService (pyStrip (pyToLower request)) u > 0
                  then some (scoreService (pyStrip (pyToLower request)) u, u)
                  else none) := by
            rw [List.mem_filterMap]
            exact ⟨t, ht, by rw [if_pos hpt]⟩
          rw [hsc] at htm
          have := hge _ htm
          have hr1 : r.1 = scoreService (pyStrip (pyToLower request)) a := by
            rw [← hra]
          omega
        · omega
      · rw [if_neg hpos] at hfa
        cases hfa

/-- Completeness of `match_service_semantic`: `none` on a nonempty request
means every service scored zero. -/
theorem matchServiceSemantic_none (services : List Service) (request : String)
    (h : matchServiceSemantic services request = none) (hreq : request ≠ "") :
    ∀ t ∈ services, scoreService (pyStrip (pyToLower request)) t = 0 := by
  intro t ht
  unfold matchServiceSemantic at h
  by_cases hg : (services.isEmpty || request == "") = true
  · rcases Bool.or_eq_true_iff.mp hg with he | he
    · rw [List.isEmpty_iff] at he
      subst he
      cases ht
    · exact absurd (by simpa using he) hreq
  · rw [if_neg hg] at h
    dsimp only at h
    rcases hsc : services.filterMap
        (fun u => if scoreService (pyStrip (pyToLower request)) u > 0
          then some (scoreService (pyStrip (pyToLower request)) u, u)
          else none) with _ | ⟨x, xs⟩
    · have := List.filterMap_eq_nil_iff.mp hsc t ht
      by_cases hpt : scoreService (pyStrip (pyToLower request)) t > 0
      · rw [if_pos hpt] at this
        cases this
      · omega
    · rw [hsc] at h
      unfold pickBest at h
      cases h

/-- C7 (counterexample): the claim says a "wash my dog" request never
resolves to "Dog Walking". Against the service list
`["Dog Walking", "Pet Sitting"]` (no grooming service offered), the
word-overlap tier scores "Dog Walking" 10 on the shared word "dog" while
"Pet Sitting" scores 0, so the request resolves to "Dog Walking". -/
theorem C7_counterexample_wash_my_dog :
    matchServiceSemantic [exServiceDW, exServicePS] "wash my dog"
      = some exServiceDW
    ∧ exServiceDW.name = "Dog Walking" := by
  exact ⟨rfl, rfl⟩

/-- C7 (amended): service scoring ranks exact phrase equality (1000) above
substring containment (900) above keyword-category scores (at most
`500 + 22·10 = 720`, determined by the earliest matching keyword's rank),
with stop-word-filtered word overlap applying only below the keyword tier;
the matcher returns a positively-scoring service of maximal score and `none`
exactly when every service scores zero. "watch my dog" resolves to
"Pet Sitting", and "wash my dog" resolves to the grooming-category service
when one is offered — but when no grooming service is present the
word-overlap tier can resolve it to "Dog Walking". -/
theorem C7_amended_service_scoring :
    (∀ req s, pyStrip (pyToLower s.name) = req → scoreService req s = 1000)
    ∧ (∀ req s, ¬ (req == pyStrip (pyToLower s.name)) →
        (isSubstrOf req (pyStrip (pyToLower s.name)) = true ∨
          isSubstrOf (pyStrip (pyToLower s.name)) req = true) →
        scoreService req s = 900)
    ∧ (∀ req sname sc, keywordScore req sname sc ≤ max sc 720)
    ∧ (∀ services request s, matchServiceSemantic services request = some s →
        s ∈ services ∧
        0 < scoreService (pyStrip (pyToLower request)) s ∧
        ∀ t ∈ services,
          scoreService (pyStrip (pyToLower request)) t ≤
            scoreService (pyStrip (pyToLower request)) s)
    ∧ (∀ services request, matchServiceSemantic services request = none →
        request ≠ "" →
        ∀ t ∈ services, scoreService (pyStrip (pyToLower request)) t = 0)
    ∧ matchServiceSemantic [exServiceDW, exServicePS] "watch my dog"
        = some exServicePS
    ∧ matchServiceSemantic [exServiceDW, exServicePS, exServicePG] "wash my dog"
        = some exServicePG
    ∧ matchServiceSemantic [exServiceDW, exServicePS] "wash my dog"
        = some exServiceDW := by
  refine ⟨scoreService_exact, scoreService_substr, keywordScore_le,
    matchServiceSemantic_sound, matchServiceSemantic_none, rfl, rfl, rfl⟩

/-- C7's amended theorem applied at a concrete input, discharging its
hypotheses there: the exact-equality tier scores "Dog Walking" 1000. -/
theorem C7_amended_service_scoring_witness :
    scoreService "dog walking" exServiceDW = 1000 :=
  C7_amended_service_scoring.1 "dog walking" exServiceDW (by decide)

/-! ## Claim C6: pet matching tiers -/

/-- The fuzzy fold's best score never decreases. -/
theorem fuzzyBestAux_mono (pn : String) (ps : List Pet) (b : Option Pet)
    (s : ℚ) : s ≤ (fuzzyBestAux pn ps (b, s)).2 := by
  induction ps generalizing b s with
  | nil => exact le_refl _
  | cons p tl ih =>
    unfold fuzzyBestAux
    by_cases hk : petKey p != ""
    · rw [if_pos hk]
      by_cases hacc : fuzzSimilarity pn (petKey p) > s ∧
          85 ≤ fuzzSimilarity pn (petKey p)
      · rw [if_pos hacc]
        exact le_trans (le_of_lt hacc.1) (ih _ _)
      · rw [if_neg hacc]
        exact ih _ _
    · rw [if_neg hk]
      exact ih _ _

/-- The fuzzy fold's best score dominates every threshold-eligible
candidate. -/
theorem fuzzyBestAux_dominates (pn : String) (ps : List Pet) (b : Option Pet)
    (s : ℚ) :
    ∀ q ∈ ps, petKey q ≠ "" → 85 ≤ fuzzSimilarity pn (petKey q) →
      fuzzSimilarity pn (petKey q) ≤ (fuzzyBestAux pn ps (b, s)).2 := by
  induction ps generalizing b s with
  | nil => intro q hq; cases hq
  | cons p tl ih =>
    intro q hq hkq h85
    unfold fuzzyBestAux
    rcases List.mem_cons.mp hq with rfl | hq'
    · have hk : petKey q != "" := by simpa using hkq
      rw [if_pos hk]
      by_cases hacc : fuzzSimilarity pn (petKey q) > s ∧
          85 ≤ fuzzSimilarity pn (petKey q)
      · rw [if_pos hacc]
        exact fuzzyBestAux_mono pn tl _ _
      · rw [if_neg hacc]
        have hle : fuzzSimilarity pn (petKey q) ≤ s := by
          by_contra hgt
          exact hacc ⟨lt_of_not_le hgt, h85⟩
        exact le_trans hle (fuzzyBestAux_mono pn tl _ _)
    · by_cases hk : petKey p != ""
      · rw [if_pos hk]
        by_cases hacc : fuzzSimilarity pn (petKey p) > s ∧
            85 ≤ fuzzSimilarity pn (petKey p)
        · rw [if_pos hacc]
          exact ih _ _ q hq' hkq h85
        · rw [if_neg hacc]
          exact ih _ _ q hq' hkq h85
      · rw [if_neg hk]
        exact ih _ _ q hq' hkq h85

/-- Invariant of the fuzzy fold: any returned pet comes from the list (or
was the incoming best), has a nonempty key, and the final best score is its
score and clears the 85 threshold. -/
theorem fuzzyBestAux_inv (pn : String) (ps : List Pet) (b : Option Pet)
    (s : ℚ)
    (hb : ∀ p, b = some p → petKey p ≠ "" ∧ 85 ≤ s ∧
      s = fuzzSimilarity pn (petKey p)) :
    ∀ p, (fuzzyBestAux pn ps (b, s)).1 = some p →
      (p ∈ ps ∨ b = some p) ∧ petKey p ≠ "" ∧
      85 ≤ (fuzzyBestAux pn ps (b, s)).2 ∧
      (fuzzyBestAux pn ps (b, s)).2 = fuzzSimilarity pn (petKey p) := by
  induction ps generalizing b s with
  | nil =>
    intro p hp
    rcases hb p hp with ⟨h1, h2, h3⟩
    exact ⟨Or.inr hp, h1, h2, h3⟩
  | cons hd tl ih =>
    intro p hp
    unfold fuzzyBestAux at hp ⊢
    by_cases hk : petKey hd != ""
    · rw [if_pos hk] at hp ⊢
      by_cases hacc : fuzzSimilarity pn (petKey hd) > s ∧
          85 ≤ fuzzSimilarity pn (petKey hd)
      · rw [if_pos hacc] at hp ⊢
        have hb' : ∀ q, (some hd : Option Pet) = some q → petKey q ≠ "" ∧
            85 ≤ fuzzSimilarity pn (petKey hd) ∧
            fuzzSimilarity pn (petKey hd) = fuzzSimilarity pn (petKey q) := by
          intro q hq
          cases hq
          exact ⟨by simpa using hk, hacc.2, rfl⟩
        rcases ih _ _ hb' p hp with ⟨hmem, h1, h2, h3⟩
        refine ⟨?_, h1, h2, h3⟩
        rcases hmem with hmem | hmem
        · exact Or.inl (List.mem_cons.mpr (Or.inr hmem))
        · exact Or.inl (List.mem_cons.mpr (Or.inl (by
            cases hmem
            rfl)))
      · rw [if_neg hacc] at hp ⊢
        rcases ih _ _ hb p hp with ⟨hmem, h1, h2, h3⟩
        refine ⟨?_, h1, h2, h3⟩
        rcases hmem with hmem | hmem
        · exact Or.inl (List.mem_cons.mpr (Or.inr hmem))
        · exact Or.inr hmem
    · rw [if_neg hk] at hp ⊢
      rcases ih _ _ hb p hp with ⟨hmem, h1, h2, h3⟩
      refine ⟨?_, h1, h2, h3⟩
      rcases hmem with hmem | hmem
      · exact Or.inl (List.mem_cons.mpr (Or.inr hmem))
      · exact Or.inr hmem

/-- Once the fuzzy fold holds a best candidate it never returns to `none`. -/
theorem fuzzyBestAux_isSome (pn : String) (ps : List Pet) (p : Pet) (s : ℚ) :
    (fuzzyBestAux pn ps (some p, s)).1.isSome := by
  induction ps generalizing p s with
  | nil => rfl
  | cons hd tl ih =>
    unfold fuzzyBestAux
    by_cases hk : petKey hd != ""
    · rw [if_pos hk]
      by_cases hacc : fuzzSimilarity pn (petKey hd) > s ∧
          85 ≤ fuzzSimilarity pn (petKey hd)
      · rw [if_pos hacc]; exact ih _ _
      · rw [if_neg hacc]; exact ih _ _
    · rw [if_neg hk]; exact ih _ _

/-- If some candidate clears the threshold, the fuzzy tier returns a pet. -/
theorem fuzzyBest_isSome_of_exists (pn : String) (ps : List Pet)
    (hex : ∃ q ∈ ps, petKey q ≠ "" ∧ 85 ≤ fuzzSimilarity pn (petKey q)) :
    (fuzzyBest ps pn).isSome := by
  unfold fuzzyBest
  induction ps with
  | nil => rcases hex with ⟨q, hq, _⟩; cases hq
  | cons hd tl ih =>
    unfold fuzzyBestAux
    by_cases hk : petKey hd != ""
    · rw [if_pos hk]
      by_cases hacc : fuzzSimilarity pn (petKey hd) > 0 ∧
          85 ≤ fuzzSimilarity pn (petKey hd)
      · rw [if_pos hacc]
        exact fuzzyBestAux_isSome pn tl hd _
      · rw [if_neg hacc]
        refine ih ?_
        rcases hex with ⟨q, hq, hkq, h85⟩
        rcases List.mem_cons.mp hq with rfl | hq'
        · exact absurd ⟨lt_of_lt_of_le (by norm_num) h85, h85⟩ hacc
        · exact ⟨q, hq', hkq, h85⟩
    · rw [if_neg hk]
      refine ih ?_
      rcases hex with ⟨q, hq, hkq, h85⟩
      rcases List.mem_cons.mp hq with rfl | hq'
      · exact absurd (by simpa using hkq) hk
      · exact ⟨q, hq', hkq, h85⟩

/-- If no candidate clears the threshold, the fuzzy fold is the identity. -/
theorem fuzzyBestAux_id_of_below (pn : String) (ps : List Pet)
    (b : Option Pet) (s : ℚ)
    (hall : ∀ q ∈ ps, petKey q ≠ "" → fuzzSimilarity pn (petKey q) < 85) :
    fuzzyBestAux pn ps (b, s) = (b, s) := by
  induction ps generalizing b s with
  | nil => rfl
  | cons hd tl ih =>
    unfold fuzzyBestAux
    by_cases hk : petKey hd != ""
    · rw [if_pos hk]
      have hlt := hall hd (List.mem_cons_self _ _) (by simpa using hk)
      have hacc : ¬ (fuzzSimilarity pn (petKey hd) > s ∧
          85 ≤ fuzzSimilarity pn (petKey hd)) := by
        intro hc
        exact absurd hc.2 (not_le_of_lt hlt)
      rw [if_neg hacc]
      exact ih _ _ (fun q hq => hall q (List.mem_cons.mpr (Or.inr hq)))
    · rw [if_neg hk]
      exact ih _ _ (fun q hq => hall q (List.mem_cons.mpr (Or.inr hq)))

/-- Soundness of the fuzzy tier: a returned pet is a threshold-clearing
maximal-score candidate. -/
theorem fuzzyBest_sound (pets : List Pet) (pn : String) (p : Pet)
    (h : fuzzyBest pets pn = some p) :
    p ∈ pets ∧ petKey p ≠ "" ∧ 85 ≤ fuzzSimilarity pn (petKey p) ∧
      ∀ q ∈ pets, petKey q ≠ "" →
        fuzzSimilarity pn (petKey q) ≤ fuzzSimilarity pn (petKey p) := by
  unfold fuzzyBest at h
  have hinv := fuzzyBestAux_inv pn pets none 0 (by intro q hq; cases hq) p h
  rcases hinv with ⟨hmem, hk, h85, hval⟩
  have hmem' : p ∈ pets := by
    rcases hmem with hm | hm
    · exact hm
    · cases hm
  rw [hval] at h85
  refine ⟨hmem', hk, h85, ?_⟩
  intro q hq hkq
  by_cases h85q : 85 ≤ fuzzSimilarity pn (petKey q)
  · have hd := fuzzyBestAux_dominates pn pets none 0 q hq hkq h85q
    rw [hval] at hd
    exact hd
  · exact le_trans (le_of_lt (lt_of_not_le h85q)) h85

/-- The fuzzy tier returns `none` exactly when no nonempty-named candidate
reaches the 85 threshold. -/
theorem fuzzyBest_none_iff (pets : List Pet) (pn : String) :
    fuzzyBest pets pn = none ↔
      ∀ q ∈ pets, petKey q ≠ "" → fuzzSimilarity pn (petKey q) < 85 := by
  constructor
  · intro h q hq hk
    by_contra hge
    have hs := fuzzyBest_isSome_of_exists pn pets ⟨q, hq, hk, le_of_not_lt hge⟩
    rw [h] at hs
    cases hs
  · intro hall
    unfold fuzzyBest
    rw [fuzzyBestAux_id_of_below pn pets none 0 hall]

/-- Example pet Bela (a one-letter typo from Bella). -/
def exPetBela : Pet :=
  { id := some "p2", name := "Bela", species := "Dog", breed := none,
    gender := none }

/-- Example pet Max. -/
def exPetMax : Pet :=
  { id := some "p3", name := "Max", species := "Cat", breed := none,
    gender := none }

/-- C6: pet matching tries the tiers strictly in order — exact
case-insensitive equality first; then the similarity tier, which accepts only
a candidate whose score clears 85/100 and dominates every other candidate's
score; then bidirectional substring matching; `none` when all three fail.
"Bella" matches an existing "Bela"; "Rex" does not match "Max". -/
theorem C6_pet_matching_tiers (pets : List Pet) (name : String)
    (h : name ≠ "") :
    (∀ p, matchPet pets name = some p →
      (pets.find? (fun q => petKey q == pyStrip (pyToLower name)) = some p)
      ∨ (pets.find? (fun q => petKey q == pyStrip (pyToLower name)) = none
          ∧ p ∈ pets ∧ petKey p ≠ ""
          ∧ 85 ≤ fuzzSimilarity (pyStrip (pyToLower name)) (petKey p)
          ∧ ∀ q ∈ pets, petKey q ≠ "" →
              fuzzSimilarity (pyStrip (pyToLower name)) (petKey q)
                ≤ fuzzSimilarity (pyStrip (pyToLower name)) (petKey p))
      ∨ (pets.find? (fun q => petKey q == pyStrip (pyToLower name)) = none
          ∧ (∀ q ∈ pets, petKey q ≠ "" →
              fuzzSimilarity (pyStrip (pyToLower name)) (petKey q) < 85)
          ∧ pets.find?
              (fun q => isSubstrOf (pyStrip (pyToLower name)) (petKey q)
                || isSubstrOf (petKey q) (pyStrip (pyToLower name)))
              = some p))
    ∧ (matchPet pets name = none →
        pets.find? (fun q => petKey q == pyStrip (pyToLower name)) = none
        ∧ (∀ q ∈ pets, petKey q ≠ "" →
            fuzzSimilarity (pyStrip (pyToLower name)) (petKey q) < 85)
        ∧ pets.find?
            (fun q => isSubstrOf (pyStrip (pyToLower name)) (petKey q)
              || isSubstrOf (petKey q) (pyStrip (pyToLower name)))
            = none)
    ∧ matchPet [exPetBela] "Bella" = some exPetBela
    ∧ matchPet [exPetMax] "Rex" = none := by
  have hbeq : (name == "") = false := by
    simp [h]
  refine ⟨?_, ?_, by rfl, by rfl⟩
  · intro p hp
    unfold matchPet at hp
    by_cases he : pets.isEmpty
    · rw [if_pos (by simp [he])] at hp
      cases hp
    · rw [if_neg (by simp [he, hbeq])] at hp
      dsimp only at hp
      rcases hex : pets.find?
          (fun q => petKey q == pyStrip (pyToLower name)) with _ | p'
      · rw [hex] at hp
        rcases hfz : fuzzyBest pets (pyStrip (pyToLower name)) with _ | pf
        · rw [hfz] at hp
          exact Or.inr (Or.inr
            ⟨rfl, (fuzzyBest_none_iff _ _).mp hfz, hp⟩)
        · rw [hfz] at hp
          have hpf : pf = p := by
            simpa using hp
          subst hpf
          rcases fuzzyBest_sound pets _ pf hfz with ⟨h1, h2, h3, h4⟩
          exact Or.inr (Or.inl ⟨rfl, h1, h2, h3, h4⟩)
      · rw [hex] at hp
        have hpp : p' = p := by
          simpa using hp
        subst hpp
        exact Or.inl rfl
  · intro hp
    unfold matchPet at hp
    by_cases he : pets.isEmpty
    · rw [List.isEmpty_iff] at he
      subst he
      refine ⟨rfl, ?_, rfl⟩
      intro q hq
      cases hq
    · rw [if_neg (by simp [he, hbeq])] at hp
      dsimp only at hp
      rcases hex : pets.find?
          (fun q => petKey q == pyStrip (pyToLower name)) with _ | p'
      · rw [hex] at hp
        rcases hfz : fuzzyBest pets (pyStrip (pyToLower name)) with _ | pf
        · rw [hfz] at hp
          exact ⟨rfl, (fuzzyBest_none_iff _ _).mp hfz, hp⟩
        · rw [hfz] at hp
          cases hp
      · rw [hex] at hp
        cases hp

/-- C6's theorem applied at a concrete input, discharging its hypothesis
there. -/
theorem C6_pet_matching_tiers_witness :
    ("Bella" : String) ≠ "" ∧ matchPet [exPetBela] "Bella" = some exPetBela :=
  ⟨by decide, (C6_pet_matching_tiers [exPetBela] "Bella" (by decide)).2.2.1⟩

/-! ## Claim C3: fail-closed on unconfigured rates -/

/-- The service list `match_service` works from: the cached full response
when present and nonempty, else the fetched remote list. -/
def effectiveServices (st : SessionState) (w : World) : List Service :=
  if ((st.getServices).getD []).isEmpty then w.services
  else (st.getServices).getD []

/-- When semantic matching succeeds on the effective service list,
`match_service` reports that service's id and its nested rate id. -/
theorem matchServiceTool_matched (st : SessionState) (w : World) (req : String)
    (svc : Service)
    (hmatch : matchServiceSemantic (effectiveServices st w) req = some svc) :
    (matchServiceTool st w req).1.matched_service_id = svc.id ∧
    (matchServiceTool st w req).1.service_rate_id =
      (match svc.serviceRate with | some r => r.id | none => none) := by
  have hne : (effectiveServices st w).isEmpty = false := by
    rcases he : (effectiveServices st w).isEmpty with _ | _
    · rfl
    · rw [List.isEmpty_iff] at he
      rw [he] at hmatch
      unfold matchServiceSemantic at hmatch
      simp at hmatch
  unfold matchServiceTool
  unfold effectiveServices at hmatch hne
  by_cases hc : ((st.getServices).getD []).isEmpty
  · rw [if_pos hc] at hmatch hne
    unfold getServicesTool
    simp [hc, hne, hmatch]
  · rw [if_neg hc] at hmatch hne
    simp [hc, hne, hmatch]

/-- Part (a) of C3: `ensure_service_matched` returns terminal
`rate_missing` whenever the semantically matched service has a truthy id but
its `serviceRate.id` is not configured, and the state holds no cached result
for this request phrase. -/
theorem ensureServiceMatched_rate_missing (st : SessionState) (w : World)
    (pid req : String) (svc : Service)
    (hmiss : ∀ se, st.serviceResult = some se →
      (otruthy se.service_id && se.service_request == req) = false)
    (hmatch : matchServiceSemantic (effectiveServices st w) req = some svc)
    (hid : otruthy svc.id = true)
    (hrate : (match svc.serviceRate with
      | some r => otruthy r.id
      | none => false) = false) :
    (ensureServiceMatched st w pid req).1.status = "rate_missing" := by
  rcases matchServiceTool_matched st w req svc hmatch with ⟨h1, h2⟩
  unfold ensureServiceMatched
  have hcache : (match st.serviceResult with
      | some se =>
        if otruthy se.service_id && se.service_request == req
        then some se else none
      | none => none) = (none : Option ServiceResultExtracted) := by
    rcases hsr : st.serviceResult with _ | se
    · rfl
    · simp [hmiss se hsr]
  rw [hcache]
  dsimp only
  rcases hmt : matchServiceTool st w req with ⟨mr, st1, log1⟩
  rw [hmt] at h1 h2
  dsimp only at h1 h2
  have hmsid : otruthy mr.matched_service_id = true := by rw [h1]; exact hid
  have hsrid : otruthy mr.service_rate_id = false := by
    rw [h2]
    rcases hsr2 : svc.serviceRate with _ | r
    · rfl
    · rw [hsr2] at hrate
      simpa using hrate
  rw [hmsid, hsrid]
  rfl

set_option maxHeartbeats 1600000 in
/-- Part (b) of C3: with customer and pets resolved and a cached service id,
a missing `serviceRateId` makes `ensure_booking_exists` return terminal
`rate_missing` with an empty remote-call log. -/
theorem ensureBookingExists_rate_missing (st : SessionState) (w : World)
    (pid dp : String) (notes sd ed stt ett : Option String)
    (se : ServiceResultExtracted)
    (hcust : otruthy (bookingStateCustomer st pid).1 = true)
    (hpets : (bookingStateCustomer st pid).2.1 ≠ [])
    (hse : st.serviceResult = some se)
    (hsid : otruthy se.service_id = true)
    (hsrid : otruthy se.service_rate_id = false) :
    (ensureBookingExists st w pid dp notes sd ed stt ett).1.status
        = "rate_missing"
    ∧ (ensureBookingExists st w pid dp notes sd ed stt ett).2.2.2 = [] := by
  unfold ensureBookingExists
  rcases hbsc : bookingStateCustomer st pid with ⟨cid, petIds, profId⟩
  rw [hbsc] at hcust hpets
  dsimp only at hcust hpets ⊢
  have hguard : (!otruthy cid || petIds.isEmpty) = false := by
    rw [hcust]
    simp [List.isEmpty_iff, hpets]
  rw [hguard]
  simp only [Bool.false_eq_true, if_false, hse]
  rw [hsid, hsrid]
  simp [bookingFailResult]

/-- Any booking-create call issued by `create_booking` carries exactly the
submitted payload's `serviceRateId` (the state fallbacks touch only
`clientId` and `serviceId`). -/
theorem createBookingTool_rate (st : SessionState) (w : World) (bd : Booking)
    (b : Booking)
    (hmem : ApiCall.createBooking b ∈ (createBookingTool st w bd).2.2.2) :
    b.serviceRateId = bd.serviceRateId := by
  unfold createBookingTool at hmem
  dsimp only at hmem
  rw [List.mem_singleton] at hmem
  cases hmem
  repeat' split
  all_goals rfl

/-- The create path issues exactly one booking-create call, whose payload
carries the resolved `serviceRateId`. -/
theorem bookingCreatePath_rate (st : SessionState) (w : World)
    (cid : Option String) (petIds : List String) (profId : String)
    (msid sname srid : Option String) (srate : Option ℚ)
    (fsd fed fstt fett : Option String) (notes : Option String)
    (log0 : List ApiCall)
    (hlog0 : ∀ b, ApiCall.createBooking b ∉ log0) (b : Booking)
    (hmem : ApiCall.createBooking b ∈
      (bookingCreatePath st w cid petIds profId msid sname srid srate
        fsd fed fstt fett notes log0).2.2.2) :
    b.serviceRateId = srid := by
  unfold bookingCreatePath at hmem
  dsimp only at hmem
  rcases hcb : createBookingTool st w
      { id := ""
        clientId := cid
        serviceId := msid
        serviceRateId := srid
        professionalId := some profId
        startDate := fsd
        endDate := fed
        startTime := fstt
        endTime := fett
        status := ""
        bookingPets := petIds.map (fun pid => { petId := some pid })
        notes := some (notes.getD "") } with ⟨created, st1, w1, log1⟩
  rw [hcb] at hmem
  dsimp only at hmem
  rw [List.mem_append] at hmem
  rcases hmem with hmem | hmem
  · exact absurd hmem (hlog0 b)
  · have := createBookingTool_rate st w _ b (by rw [hcb]; exact hmem)
    simpa using this

/-- `update_booking` issues no booking-create call. -/
theorem updateBookingTool_no_create (st : SessionState) (w : World)
    (bid : String) (bd : Booking) (b : Booking) :
    ApiCall.createBooking b ∉ (updateBookingTool st w bid bd).2.2.2 := by
  unfold updateBookingTool
  dsimp only
  rw [List.mem_singleton]
  intro hc
  cases hc

/-- The remote-call log of `update_booking` is a single update call. -/
theorem updateBookingTool_log (st : SessionState) (w : World) (bid : String)
    (bd : Booking) :
    ∃ x, (updateBookingTool st w bid bd).2.2.2 = [ApiCall.updateBooking bid x] := by
  unfold updateBookingTool
  exact ⟨_, rfl⟩


set_option maxHeartbeats 2000000 in
/-- Part (c) of C3: every booking-create call issued by
`ensure_booking_exists` carries a truthy `serviceRateId` (the create path is
only reachable after the rate check). -/
theorem ensureBookingExists_create_rate_truthy (st : SessionState) (w : World)
    (pid dp : String) (notes sd ed stt ett : Option String) (b : Booking)
    (hmem : ApiCall.createBooking b ∈
      (ensureBookingExists st w pid dp notes sd ed stt ett).2.2.2) :
    otruthy b.serviceRateId = true := by
  unfold ensureBookingExists at hmem
  rcases hbsc : bookingStateCustomer st pid with ⟨cid, petIds, profId⟩
  rw [hbsc] at hmem
  clear hbsc
  dsimp only at hmem
  by_cases hg : (!otruthy cid || petIds.isEmpty) = true
  · rw [if_pos hg] at hmem
    simp at hmem
  · rw [if_neg hg] at hmem
    rcases hsr : st.serviceResult with _ | se
    · rw [hsr] at hmem
      dsimp only at hmem
      rw [if_pos (by rfl)] at hmem
      simp at hmem
    · rw [hsr] at hmem
      dsimp only at hmem
      by_cases hmsid : otruthy se.service_id = true
      · rw [if_neg (by simp [hmsid])] at hmem
        by_cases hsrid : otruthy se.service_rate_id = true
        · rw [if_neg (by simp [hsrid])] at hmem
          rcases hfd : finalizeDates
              (resolveDates st w.today dp sd ed stt ett) with
            ⟨fsd, fed, fstt, fett⟩
          rw [hfd] at hmem
          clear hfd
          dsimp only at hmem
          rcases hex : (match st.getBookings with
            | some bs => findExistingBooking bs cid petIds
            | none => none) with _ | eb
          · rw [hex] at hmem
            have := bookingCreatePath_rate st w cid petIds profId
              se.service_id se.service_name se.service_rate_id se.service_rate
              fsd fed fstt fett notes [] (by intro b' hb'; cases hb') b hmem
            rw [this]
            exact hsrid
          · rw [hex] at hmem
            dsimp only at hmem
            by_cases hebid : (eb.id != "") = true
            · rw [if_pos hebid] at hmem
              dsimp only [getBookingsTool] at hmem
              rcases hff : w.bookings.find? (fun x => x.id == eb.id)
                with _ | fetched
              · rw [hff] at hmem
                have := bookingCreatePath_rate _ w cid petIds profId
                  se.service_id se.service_name se.service_rate_id
                  se.service_rate fsd fed fstt fett notes
                  [ApiCall.listBookings] (by intro b' hb'; simp at hb') b hmem
                rw [this]
                exact hsrid
              · rw [hff] at hmem
                dsimp only at hmem
                rw [List.mem_append] at hmem
                rcases hmem with hmem | hmem
                · simp at hmem
                · exact absurd hmem (updateBookingTool_no_create _ _ _ _ b)
            · rw [if_neg hebid] at hmem
              have := bookingCreatePath_rate st w cid petIds profId
                se.service_id se.service_name se.service_rate_id
                se.service_rate fsd fed fstt fett notes []
                (by intro b' hb'; cases hb') b hmem
              rw [this]
              exact hsrid
        · rw [if_pos (by simp [Bool.not_eq_true] at hsrid; simp [hsrid])] at hmem
          simp at hmem
      · rw [if_pos (by simp [Bool.not_eq_true] at hmsid; simp [hmsid])] at hmem
        simp at hmem

/-- C3: fail-closed on unconfigured rates. (a) Service resolution returns
terminal `rate_missing` whenever the matched service's `serviceRate.id` is
null (no cached result for the phrase); (b) booking resolution invoked while
the state holds no `serviceRateId` (customer, pets and service id present)
returns `rate_missing` and performs zero remote calls; (c) no booking-create
call is ever issued by booking resolution with a null `serviceRateId`. -/
theorem C3_rate_missing_fail_closed :
    (∀ (st : SessionState) (w : World) (pid req : String) (svc : Service),
      (∀ se, st.serviceResult = some se →
        (otruthy se.service_id && se.service_request == req) = false) →
      matchServiceSemantic (effectiveServices st w) req = some svc →
      otruthy svc.id = true →
      (match svc.serviceRate with
        | some r => otruthy r.id
        | none => false) = false →
      (ensureServiceMatched st w pid req).1.status = "rate_missing")
    ∧ (∀ (st : SessionState) (w : World) (pid dp : String)
        (notes sd ed stt ett : Option String) (se : ServiceResultExtracted),
      otruthy (bookingStateCustomer st pid).1 = true →
      (bookingStateCustomer st pid).2.1 ≠ [] →
      st.serviceResult = some se →
      otruthy se.service_id = true →
      otruthy se.service_rate_id = false →
      (ensureBookingExists st w pid dp notes sd ed stt ett).1.status
          = "rate_missing"
      ∧ (ensureBookingExists st w pid dp notes sd ed stt ett).2.2.2 = [])
    ∧ (∀ (st : SessionState) (w : World) (pid dp : String)
        (notes sd ed stt ett : Option String) (b : Booking),
      ApiCall.createBooking b ∈
        (ensureBookingExists st w pid dp notes sd ed stt ett).2.2.2 →
      otruthy b.serviceRateId = true) := by
  refine ⟨?_, ?_, ?_⟩
  · intro st w pid req svc hmiss hmatch hid hrate
    exact ensureServiceMatched_rate_missing st w pid req svc hmiss hmatch hid hrate
  · intro st w pid dp notes sd ed stt ett se hcust hpets hse hsid hsrid
    exact ensureBookingExists_rate_missing st w pid dp notes sd ed stt ett se
      hcust hpets hse hsid hsrid
  · intro st w pid dp notes sd ed stt ett b hmem
    exact ensureBookingExists_create_rate_truthy st w pid dp notes sd ed stt
      ett b hmem

/-- Example cached service-stage result whose rate id is unconfigured. -/
def exServiceResultNoRate : ServiceResultExtracted :=
  { service_id := some "s-ps", service_name := some "Pet Sitting",
    service_rate_id := none, service_rate := some 50,
    service_request := "pet sitting" }

/-- Example session state whose service stage is missing the rate id. -/
def exStateRateMissing : SessionState :=
  { exStateBooking with serviceResult := some exServiceResultNoRate }

/-- C3's theorem applied at a concrete input, discharging its hypotheses
there: with customer `c1` and pet `p1` in state but no `serviceRateId`,
booking resolution reports `rate_missing` and the call log is empty. -/
theorem C3_rate_missing_fail_closed_witness :
    (ensureBookingExists exStateRateMissing exWorldBooking "prof-1" "x"
      none none none none none).1.status = "rate_missing"
    ∧ (ensureBookingExists exStateRateMissing exWorldBooking "prof-1" "x"
      none none none none none).2.2.2 = [] :=
  C3_rate_missing_fail_closed.2.1 exStateRateMissing exWorldBooking "prof-1"
    "x" none none none none none exServiceResultNoRate (by decide) (by decide)
    rfl (by decide) (by decide)

/-! ## Claim C9: placeholder dates on the create path -/

/-- When the start date is absent from the arguments, from the cached
`date_result`, and the fallback phrase parser does not trigger, date
resolution produces no truthy start date. -/
theorem resolveDates_no_start (st : SessionState) (today : Date)
    (dp : String) (sd ed stt ett : Option String)
    (h1 : otruthy sd = false)
    (h2 : ∀ dr, st.dateResult = some dr → otruthy dr.start_date = false)
    (h3 : fallbackTrigger dp = false) :
    otruthy (resolveDates st today dp sd ed stt ett).1 = false := by
  unfold resolveDates
  have hfb : fallbackParseDates today dp = none := by
    unfold fallbackParseDates
    simp [h3]
  rcases hdr : st.dateResult with _ | dr
  · dsimp only
    by_cases hc : (!otruthy sd && dp != "") = true
    · rw [if_pos hc, hfb]
      exact h1
    · rw [if_neg hc]
      exact h1
  · dsimp only
    have hcsd : otruthy (orKeep dr.start_date sd) = false := by
      unfold orKeep
      rw [h2 dr hdr]
      simp [h1]
    by_cases hc : (!otruthy (orKeep dr.start_date sd) && dp != "") = true
    · rw [if_pos hc, hfb]
      exact hcsd
    · rw [if_neg hc]
      exact hcsd

/-- A non-truthy start date is finalized to the four placeholders. -/
theorem finalizeDates_placeholder
    (q : Option String × Option String × Option String × Option String)
    (h : otruthy q.1 = false) :
    finalizeDates q =
      (some "2024-01-01", some "2024-01-01", some "00:00", some "23:59") := by
  rcases q with ⟨csd, ced, cst, cet⟩
  unfold finalizeDates
  simp only at h
  dsimp only
  rw [if_pos (by simp [h])]

/-- The booking record created by `create_booking` echoes the payload's
dates, and the logged call carries them too. -/
theorem createBookingTool_fields (st : SessionState) (w : World)
    (bd : Booking) :
    (createBookingTool st w bd).1.startDate = bd.startDate
    ∧ (createBookingTool st w bd).1.endDate = bd.endDate
    ∧ (createBookingTool st w bd).1.startTime = bd.startTime
    ∧ (createBookingTool st w bd).1.endTime = bd.endTime
    ∧ ∃ bd2, (createBookingTool st w bd).2.2.2 = [ApiCall.createBooking bd2]
        ∧ bd2.startDate = bd.startDate ∧ bd2.endDate = bd.endDate
        ∧ bd2.startTime = bd.startTime ∧ bd2.endTime = bd.endTime := by
  unfold createBookingTool
  dsimp only
  repeat' split
  all_goals exact ⟨rfl, rfl, rfl, rfl, _, rfl, rfl, rfl, rfl, rfl⟩

/-- The create path reports status/action "created", echoes the resolved
dates, and appends exactly one create call carrying them. -/
theorem bookingCreatePath_spec (st : SessionState) (w : World)
    (cid : Option String) (petIds : List String) (profId : String)
    (msid sname srid : Option String) (srate : Option ℚ)
    (fsd fed fstt fett : Option String) (notes : Option String)
    (log0 : List ApiCall) :
    (bookingCreatePath st w cid petIds profId msid sname srid srate
        fsd fed fstt fett notes log0).1.status = "created"
    ∧ (bookingCreatePath st w cid petIds profId msid sname srid srate
        fsd fed fstt fett notes log0).1.action_taken = "created"
    ∧ (bookingCreatePath st w cid petIds profId msid sname srid srate
        fsd fed fstt fett notes log0).1.start_date = fsd
    ∧ (bookingCreatePath st w cid petIds profId msid sname srid srate
        fsd fed fstt fett notes log0).1.end_date = fed
    ∧ (bookingCreatePath st w cid petIds profId msid sname srid srate
        fsd fed fstt fett notes log0).1.start_time = fstt
    ∧ (bookingCreatePath st w cid petIds profId msid sname srid srate
        fsd fed fstt fett notes log0).1.end_time = fett
    ∧ ∃ bd, (bookingCreatePath st w cid petIds profId msid sname srid srate
          fsd fed fstt fett notes log0).2.2.2
        = log0 ++ [ApiCall.createBooking bd]
        ∧ bd.startDate = fsd ∧ bd.endDate = fed
        ∧ bd.startTime = fstt ∧ bd.endTime = fett := by
  unfold bookingCreatePath
  dsimp only
  rcases createBookingTool_fields st w
      { id := ""
        clientId := cid
        serviceId := msid
        serviceRateId := srid
        professionalId := some profId
        startDate := fsd
        endDate := fed
        startTime := fstt
        endTime := fett
        status := ""
        bookingPets := petIds.map (fun pid => { petId := some pid })
        notes := some (notes.getD "") } with
    ⟨h1, h2, h3, h4, bd2, h5, h6, h7, h8, h9⟩
  exact ⟨rfl, rfl, h1, h2, h3, h4, bd2, by rw [h5], h6, h7, h8, h9⟩

set_option maxHeartbeats 2000000 in
/-- C9: when booking resolution reaches the create path with no start date
resolvable from its arguments, the cached `date_result`, or the date-phrase
fallback parser, it substitutes the placeholder dates
`startDate = endDate = 2024-01-01`, `startTime = 00:00`, `endTime = 23:59`
and still issues the remote create-booking call with those values. -/
theorem C9_placeholder_dates_create (st : SessionState) (w : World)
    (pid dp : String) (notes sd ed stt ett : Option String)
    (se : ServiceResultExtracted)
    (hcust : otruthy (bookingStateCustomer st pid).1 = true)
    (hpets : (bookingStateCustomer st pid).2.1 ≠ [])
    (hse : st.serviceResult = some se)
    (hsid : otruthy se.service_id = true)
    (hsrid : otruthy se.service_rate_id = true)
    (h1 : otruthy sd = false)
    (h2 : ∀ dr, st.dateResult = some dr → otruthy dr.start_date = false)
    (h3 : fallbackTrigger dp = false)
    (hnc : (match st.getBookings with
      | some bs => findExistingBooking bs (bookingStateCustomer st pid).1
          (bookingStateCustomer st pid).2.1
      | none => none) = none) :
    (ensureBookingExists st w pid dp notes sd ed stt ett).1.status = "created"
    ∧ (ensureBookingExists st w pid dp notes sd ed stt ett).1.action_taken
        = "created"
    ∧ (ensureBookingExists st w pid dp notes sd ed stt ett).1.start_date
        = some "2024-01-01"
    ∧ (ensureBookingExists st w pid dp notes sd ed stt ett).1.end_date
        = some "2024-01-01"
    ∧ (ensureBookingExists st w pid dp notes sd ed stt ett).1.start_time
        = some "00:00"
    ∧ (ensureBookingExists st w pid dp notes sd ed stt ett).1.end_time
        = some "23:59"
    ∧ ∃ bd, (ensureBookingExists st w pid dp notes sd ed stt ett).2.2.2
          = [ApiCall.createBooking bd]
        ∧ bd.startDate = some "2024-01-01" ∧ bd.endDate = some "2024-01-01"
        ∧ bd.startTime = some "00:00" ∧ bd.endTime = some "23:59" := by
  have hdates := finalizeDates_placeholder
    (resolveDates st w.today dp sd ed stt ett)
    (resolveDates_no_start st w.today dp sd ed stt ett h1 h2 h3)
  unfold ensureBookingExists
  rcases hbsc : bookingStateCustomer st pid with ⟨cid, petIds, profId⟩
  rw [hbsc] at hcust hpets hnc
  dsimp only at hcust hpets hnc ⊢
  rw [if_neg (by simp [hcust, List.isEmpty_iff, hpets])]
  rw [hse]
  dsimp only
  rw [if_neg (by simp [hsid])]
  rw [if_neg (by simp [hsrid])]
  rw [hdates]
  dsimp only
  rw [hnc]
  rcases bookingCreatePath_spec st w cid petIds profId se.service_id
      se.service_name se.service_rate_id se.service_rate
      (some "2024-01-01") (some "2024-01-01") (some "00:00") (some "23:59")
      notes [] with
    ⟨hs1, hs2, hs3, hs4, hs5, hs6, bd, hs7, hs8, hs9, hs10, hs11⟩
  exact ⟨hs1, hs2, hs3, hs4, hs5, hs6, bd, by simpa using hs7, hs8, hs9,
    hs10, hs11⟩

/-- C9's theorem applied at a concrete input, discharging its hypotheses
there: with no resolvable dates the create call is issued with the
placeholder dates. -/
theorem C9_placeholder_dates_create_witness :
    (ensureBookingExists
        { exStateBooking with getBookings := none } exWorldBooking
        "prof-1" "tomorrow" none none none none none).1.status = "created"
    ∧ (ensureBookingExists
        { exStateBooking with getBookings := none } exWorldBooking
        "prof-1" "tomorrow" none none none none none).1.start_date
      = some "2024-01-01" :=
  have h := C9_placeholder_dates_create
    { exStateBooking with getBookings := none } exWorldBooking
    "prof-1" "tomorrow" none none none none none exServiceResultPS
    (by decide) (by decide) rfl (by decide) (by decide) (by decide)
    (by intro dr hdr; cases hdr) (by decide) rfl
  ⟨h.1, h.2.2.1⟩

/-! ## Claim C10: the cached customer id is the first customer's id -/

/-- C10: the `customer_id` stored in state is always the id of the first
customer of the cached list: extraction takes the head's id; re-extraction
after a create (which appends) preserves the pre-existing first customer's
id; and booking resolution reads the state `customer_id` together with the
first cached customer's pet ids — not those of a customer created later. -/
theorem C10_customer_id_first_of_cache :
    (∀ (c : Customer) (rest : List Customer),
      (extractCustomerFields (c :: rest)).customer_id = some c.id)
    ∧ (∀ (st : SessionState) (w : World) (data : CustomerData)
        (ext : CustomerExtracted) (c : Customer) (rest : List Customer)
        (ext' : CustomerExtracted),
      st.getCustomerProfile = some ext →
      ext.customers = c :: rest →
      ext.customer_id = some c.id →
      (createCustomerTool st w data).2.1.getCustomerProfile = some ext' →
      ext'.customer_id = some c.id)
    ∧ (∀ (st : SessionState) (pid : String) (ext : CustomerExtracted)
        (c : Customer) (rest : List Customer),
      st.getCustomerProfile = some ext →
      ext.customers = c :: rest →
      (bookingStateCustomer st pid).1 = ext.customer_id
      ∧ (bookingStateCustomer st pid).2.1
          = c.pets.filterMap (fun p => match p.id with
              | some x => if x != "" then some x else none
              | none => none)) := by
  refine ⟨?_, ?_, ?_⟩
  · intro c rest
    simp [extractCustomerFields]
  · intro st w data ext c rest ext' hst hcs hwf hst'
    unfold createCustomerTool at hst'
    rw [hst] at hst'
    dsimp only at hst'
    rcases hdd : (if (data.email != "" || data.phone != "") = true
        then ext.customers.find? (fun cc =>
          (data.email != "" && cc.email == data.email) ||
            (data.phone != "" && cc.phone == data.phone))
        else none) with _ | existing
    · rw [hdd] at hst'
      dsimp only at hst'
      have hx : extractCustomerFields (ext.customers ++
          [{ id := "new-" ++ toString w.nextId
             firstName := data.firstName
             lastName := data.lastName
             email := data.email
             phone := data.phone
             professionalId := data.professionalId
             pets := [] }]) = ext' := by
        simpa using hst'
      rw [← hx, hcs]
      simp [extractCustomerFields]
    · rw [hdd] at hst'
      dsimp only at hst'
      rw [hst] at hst'
      have hx : ext = ext' := by simpa using hst'
      rw [← hx]
      exact hwf
  · intro st pid ext c rest hst hcs
    unfold bookingStateCustomer
    rw [hst]
    dsimp only
    rw [hcs]
    exact ⟨rfl, rfl⟩

/-- The customer record created for Bob by `create_customer` in
`exWorldCustomers` (fresh id `new-0`). -/
def exCreatedBob : Customer :=
  { id := "new-0", firstName := "Bob", lastName := "Jones",
    email := "b@y.com", phone := "222", professionalId := "prof-1",
    pets := [] }

/-- Example state caching only Alice's customer record. -/
def exStateCustomers : SessionState :=
  { emptyState with
    getCustomerProfile := some (extractCustomerFields [exCustomerAlice]) }

/-- The payload creating Bob. -/
def exDataBob : CustomerData :=
  { firstName := "Bob", lastName := "Jones", email := "b@y.com",
    phone := "222", professionalId := "prof-1" }

/-- C10's theorem applied at a concrete input, discharging its hypotheses
there: after creating Bob while Alice is cached first, the re-extracted
`customer_id` is still Alice's. -/
theorem C10_customer_id_first_of_cache_witness :
    (extractCustomerFields ([exCustomerAlice] ++ [exCreatedBob])).customer_id
      = some exCustomerAlice.id :=
  C10_customer_id_first_of_cache.2.1 exStateCustomers exWorldCustomers
    exDataBob (extractCustomerFields [exCustomerAlice]) exCustomerAlice []
    (extractCustomerFields ([exCustomerAlice] ++ [exCreatedBob]))
    rfl rfl rfl rfl

/-! ## Claim C8: idempotence of customer resolution -/

/-- The state after `get_customer_profile` caches the fetched list. -/
def stFetched (st : SessionState) (w : World) : SessionState :=
  { st with getCustomerProfile := some (extractCustomerFields w.customers) }

/-- The payload `ensure_customer_exists` builds for `create_customer`. -/
def customerDataOf (pid : String) (name email phone : Option String) :
    CustomerData :=
  { firstName := (pySplit (name.getD "")).headD ""
    lastName := if (pySplit (name.getD "")).length > 1
      then pyJoin " " (pySplit (name.getD "")).tail else ""
    email := email.getD ""
    phone := phone.getD ""
    professionalId := pid }

/-- The fresh customer record the modeled server creates for a payload. -/
def createdCustomerOf (w : World) (data : CustomerData) : Customer :=
  { id := "new-" ++ toString w.nextId
    firstName := data.firstName
    lastName := data.lastName
    email := data.email
    phone := data.phone
    professionalId := data.professionalId
    pets := [] }

/-- The dedup scan of `create_customer` over the cached list. -/
def dedupFind (st : SessionState) (data : CustomerData) : Option Customer :=
  match st.getCustomerProfile with
  | some ext =>
    if data.email != "" || data.phone != "" then
      ext.customers.find? (fun c =>
        (data.email != "" && c.email == data.email) ||
          (data.phone != "" && c.phone == data.phone))
    else none
  | none => none

/-- The run-1 state match of `ensure_customer_exists`. -/
def stateMatchOf (st : SessionState) (name email phone : Option String) :
    Option Customer :=
  match st.getCustomerProfile with
  | some ext => matchCustomer ext.customers email phone name
  | none => none

/-- `create_customer` on a dedup hit returns the cached record without any
remote call or state change. -/
theorem createCustomerTool_dedup (st : SessionState) (w : World)
    (data : CustomerData) (existing : Customer)
    (h : dedupFind st data = some existing) :
    createCustomerTool st w data = (existing, st, w, []) := by
  unfold dedupFind at h
  unfold createCustomerTool
  rw [h]

/-- `create_customer` on a dedup miss (with a populated cache) creates the
fresh record, appends it to the cache and the server list, and logs one
create call. -/
theorem createCustomerTool_create (st : SessionState) (w : World)
    (data : CustomerData) (ext : CustomerExtracted)
    (h : dedupFind st data = none)
    (hst : st.getCustomerProfile = some ext) :
    createCustomerTool st w data =
      (createdCustomerOf w data,
       { st with getCustomerProfile := some (extractCustomerFields
           (ext.customers ++ [createdCustomerOf w data])) },
       { w with customers := w.customers ++ [createdCustomerOf w data]
                nextId := w.nextId + 1 },
       [ApiCall.createCustomer (createdCustomerOf w data)]) := by
  unfold dedupFind at h
  unfold createCustomerTool createdCustomerOf
  rw [h, hst]

/-- Outcome A of `ensure_customer_exists`: a state match returns it
directly. -/
theorem ensureCustomerExists_state_found (st : SessionState) (w : World)
    (pid : String) (name email phone : Option String) (c : Customer)
    (h : stateMatchOf st name email phone = some c) :
    ensureCustomerExists st w pid name email phone
      = (formatCustomerResult c "found" "state", st, w, []) := by
  unfold stateMatchOf at h
  unfold ensureCustomerExists
  rw [h]

/-- Outcome B of `ensure_customer_exists`: no state match, but the fetched
list matches. -/
theorem ensureCustomerExists_api_found (st : SessionState) (w : World)
    (pid : String) (name email phone : Option String) (c : Customer)
    (h1 : stateMatchOf st name email phone = none)
    (h2 : matchCustomer w.customers email phone name = some c) :
    ensureCustomerExists st w pid name email phone
      = (formatCustomerResult c "found" "api", stFetched st w, w,
         [ApiCall.listCustomers]) := by
  unfold stateMatchOf at h1
  unfold ensureCustomerExists getCustomerProfileTool stFetched
  rw [h1]
  dsimp only
  rw [h2]

/-- Outcome C of `ensure_customer_exists`: no match anywhere and no
identifying data. -/
theorem ensureCustomerExists_insufficient (st : SessionState) (w : World)
    (pid : String) (name email phone : Option String)
    (h1 : stateMatchOf st name email phone = none)
    (h2 : matchCustomer w.customers email phone name = none)
    (h3 : (!otruthy name && !otruthy email && !otruthy phone) = true) :
    ensureCustomerExists st w pid name email phone
      = ({ customer_id := none, status := "insufficient_data",
           customer_name := "", existing_pets := [], source := "api" },
         stFetched st w, w, [ApiCall.listCustomers]) := by
  unfold stateMatchOf at h1
  unfold ensureCustomerExists getCustomerProfileTool stFetched
  rw [h1]
  dsimp only
  rw [h2, if_pos h3]

/-- Outcome D of `ensure_customer_exists`: no match anywhere and some
identifying data present — the create path via `create_customer` on the
fetched state. -/
theorem ensureCustomerExists_create (st : SessionState) (w : World)
    (pid : String) (name email phone : Option String)
    (h1 : stateMatchOf st name email phone = none)
    (h2 : matchCustomer w.customers email phone name = none)
    (h3 : (!otruthy name && !otruthy email && !otruthy phone) = false) :
    ensureCustomerExists st w pid name email phone
      = (formatCustomerResult
           (createCustomerTool (stFetched st w) w
             (customerDataOf pid name email phone)).1 "created" "api",
         (createCustomerTool (stFetched st w) w
           (customerDataOf pid name email phone)).2.1,
         (createCustomerTool (stFetched st w) w
           (customerDataOf pid name email phone)).2.2.1,
         [ApiCall.listCustomers] ++
           (createCustomerTool (stFetched st w) w
             (customerDataOf pid name email phone)).2.2.2) := by
  unfold stateMatchOf at h1
  unfold ensureCustomerExists getCustomerProfileTool stFetched customerDataOf
  rw [h1]
  dsimp only
  rw [h2, if_neg (by rw [h3]; simp)]

/-- `match_customer` over an appended list: the left part is scanned
first. -/
theorem matchCustomer_append (l1 l2 : List Customer)
    (email phone name : Option String) :
    matchCustomer (l1 ++ l2) email phone name
      = (match matchCustomer l1 email phone name with
         | some c => some c
         | none => matchCustomer l2 email phone name) := by
  induction l1 with
  | nil => simp [matchCustomer]
  | cons c rest ih =>
    by_cases hE : emailMatches email c = true
    · simp [matchCustomer, hE]
    · by_cases hP : phoneMatches phone c = true
      · simp [matchCustomer, hE, hP]
      · by_cases hN : nameMatches name c = true
        · simp [matchCustomer, hE, hP, hN]
        · simp only [List.cons_append, matchCustomer, hE, hP, hN,
            if_false, Bool.false_eq_true]
          exact ih

/-- Whether a name, after `ensure_customer_exists`'s first/last split and
re-joining, still satisfies the bidirectional-substring name criterion
against itself (false for names whose internal whitespace is not single
spaces, e.g. `"Alice  Smith"`). -/
def nameSelfMatches (n : String) : Bool :=
  let parts := pySplit n
  let firstName := parts.headD ""
  let lastName := if parts.length > 1 then pyJoin " " parts.tail else ""
  let customerName := pyToLower (pyStrip (firstName ++ " " ++ lastName))
  (customerName != "" && isSubstrOf (pyToLower n) customerName) ||
    isSubstrOf customerName (pyToLower n)

/-- A singleton list matches when the candidate satisfies any criterion. -/
theorem matchCustomer_singleton_of (c : Customer)
    (email phone name : Option String)
    (hany : customerMatchesAny email phone name c = true) :
    matchCustomer [c] email phone name = some c := by
  rw [matchCustomer_eq_find]
  simp [List.find?, hany]

/-- The freshly created customer matches the inputs it was created from,
whenever the email or phone is truthy, or the name is self-matching. -/
theorem createdCustomerOf_matches (w : World) (pid : String)
    (name email phone : Option String)
    (H : otruthy email = true ∨ otruthy phone = true ∨
      (∀ n, name = some n → n ≠ "" → nameSelfMatches n = true))
    (h3 : (!otruthy name && !otruthy email && !otruthy phone) = false) :
    customerMatchesAny email phone name
      (createdCustomerOf w (customerDataOf pid name email phone)) = true := by
  have hEcase : ∀ e, email = some e → e ≠ "" →
      customerMatchesAny email phone name
        (createdCustomerOf w (customerDataOf pid name email phone)) = true := by
    intro e hee he
    subst hee
    have hem : emailMatches (some e)
        (createdCustomerOf w (customerDataOf pid name (some e) phone))
          = true := by
      unfold emailMatches createdCustomerOf customerDataOf
      simp [he]
    unfold customerMatchesAny
    rw [hem]
    rfl
  have hPcase : ∀ p, phone = some p → p ≠ "" →
      customerMatchesAny email phone name
        (createdCustomerOf w (customerDataOf pid name email phone)) = true := by
    intro p hpp hp
    subst hpp
    have hpm : phoneMatches (some p)
        (createdCustomerOf w (customerDataOf pid name email (some p)))
          = true := by
      unfold phoneMatches createdCustomerOf customerDataOf
      simp [hp]
    unfold customerMatchesAny
    rw [hpm]
    simp
  rcases H with hE | hP | hN
  · rcases email with _ | e
    · cases hE
    · exact hEcase e rfl (by simpa [otruthy] using hE)
  · rcases phone with _ | p
    · cases hP
    · exact hPcase p rfl (by simpa [otruthy] using hP)
  · by_cases hE : otruthy email = true
    · rcases email with _ | e
      · cases hE
      · exact hEcase e rfl (by simpa [otruthy] using hE)
    · by_cases hP : otruthy phone = true
      · rcases phone with _ | p
        · cases hP
        · exact hPcase p rfl (by simpa [otruthy] using hP)
      · have hnt : otruthy name = true := by
          rcases hb : otruthy name with _ | _
          · exfalso
            rw [Bool.not_eq_true] at hE hP
            rw [hb, hE, hP] at h3
            simp at h3
          · rfl
        rcases name with _ | n
        · cases hnt
        · have hn : n ≠ "" := by simpa [otruthy] using hnt
          have hself := hN n rfl hn
          unfold customerMatchesAny
          refine Bool.or_eq_true_iff.mpr (Or.inr ?_)
          unfold nameMatches createdCustomerOf customerDataOf
          unfold nameSelfMatches at hself
          revert hself
          simp [hn, List.headD]

set_option maxHeartbeats 4000000 in
/-- C8 (amended): customer resolution is idempotent within a session
provided the inputs can re-identify the record they create: when the email
or the phone is truthy, or the given name still matches its own normalized
`"first last"` split (true in particular for names whose internal whitespace
is single spaces), two runs with identical inputs perform at most one remote
creation call in total and the second run returns the id cached by the
first.  (A name like `"Alice  Smith"` with no email/phone defeats the cache
and triggers a second creation call — see the counterexample.) -/
theorem C8_amended_idempotent (st : SessionState) (w : World) (pid : String)
    (name email phone : Option String)
    (H : otruthy email = true ∨ otruthy phone = true ∨
      (∀ n, name = some n → n ≠ "" → nameSelfMatches n = true)) :
    countCustomerCreates
      ((ensureCustomerExists st w pid name email phone).2.2.2 ++
        (ensureCustomerExists
          (ensureCustomerExists st w pid name email phone).2.1
          (ensureCustomerExists st w pid name email phone).2.2.1
          pid name email phone).2.2.2) ≤ 1
    ∧ (ensureCustomerExists
          (ensureCustomerExists st w pid name email phone).2.1
          (ensureCustomerExists st w pid name email phone).2.2.1
          pid name email phone).1.customer_id
        = (ensureCustomerExists st w pid name email phone).1.customer_id := by
  rcases hsm1 : stateMatchOf st name email phone with _ | c1
  · rcases hm2 : matchCustomer w.customers email phone name with _ | c2
    · by_cases h3 : (!otruthy name && !otruthy email && !otruthy phone) = true
      · rw [ensureCustomerExists_insufficient st w pid name email phone
          hsm1 hm2 h3]
        dsimp only
        have hsm2 : stateMatchOf (stFetched st w) name email phone = none :=
          hm2
        rw [ensureCustomerExists_insufficient (stFetched st w) w pid name
          email phone hsm2 hm2 h3]
        dsimp only
        exact ⟨by simp [countCustomerCreates], rfl⟩
      · have h3f : (!otruthy name && !otruthy email && !otruthy phone)
            = false := by
          rcases hb : (!otruthy name && !otruthy email && !otruthy phone) with
            _ | _
          · rfl
          · exact absurd hb h3
        rw [ensureCustomerExists_create st w pid name email phone hsm1 hm2 h3f]
        rcases hdd : dedupFind (stFetched st w)
            (customerDataOf pid name email phone) with _ | existing
        · have hcc := createCustomerTool_create (stFetched st w) w
            (customerDataOf pid name email phone)
            (extractCustomerFields w.customers) hdd rfl
          rw [hcc]
          dsimp only
          have hsm2 : stateMatchOf
              { stFetched st w with
                getCustomerProfile := some (extractCustomerFields
                  ((extractCustomerFields w.customers).customers ++
                    [createdCustomerOf w
                      (customerDataOf pid name email phone)])) }
              name email phone
              = some (createdCustomerOf w
                  (customerDataOf pid name email phone)) := by
            unfold stateMatchOf
            dsimp only
            have happ := matchCustomer_append w.customers
              [createdCustomerOf w (customerDataOf pid name email phone)]
              email phone name
            have hone := matchCustomer_singleton_of
              (createdCustomerOf w (customerDataOf pid name email phone))
              email phone name
              (createdCustomerOf_matches w pid name email phone H h3f)
            rw [hm2] at happ
            dsimp only at happ
            rw [hone] at happ
            exact happ
          rw [ensureCustomerExists_state_found _ _ pid name email phone _ hsm2]
          dsimp only
          exact ⟨by simp [countCustomerCreates], rfl⟩
        · have hcc := createCustomerTool_dedup (stFetched st w) w
            (customerDataOf pid name email phone) existing hdd
          rw [hcc]
          dsimp only
          have hsm2 : stateMatchOf (stFetched st w) name email phone = none :=
            hm2
          rw [ensureCustomerExists_create (stFetched st w) w pid name email
            phone hsm2 hm2 h3f]
          have hdd2 : dedupFind (stFetched (stFetched st w) w)
              (customerDataOf pid name email phone) = some existing := hdd
          rw [createCustomerTool_dedup (stFetched (stFetched st w) w) w
            (customerDataOf pid name email phone) existing hdd2]
          dsimp only
          exact ⟨by simp [countCustomerCreates], rfl⟩
    · rw [ensureCustomerExists_api_found st w pid name email phone c2
        hsm1 hm2]
      dsimp only
      have hsm2 : stateMatchOf (stFetched st w) name email phone = some c2 :=
        hm2
      rw [ensureCustomerExists_state_found (stFetched st w) w pid name email
        phone c2 hsm2]
      dsimp only
      exact ⟨by simp [countCustomerCreates], rfl⟩
  · rw [ensureCustomerExists_state_found st w pid name email phone c1 hsm1]
    dsimp only
    rw [ensureCustomerExists_state_found st w pid name email phone c1 hsm1]
    dsimp only
    exact ⟨by simp [countCustomerCreates], rfl⟩

/-- Example world with no remote records yet. -/
def exWorldEmpty : World :=
  { customers := [], services := [], bookings := [],
    today := { year := 2024, month := 12, day := 2 }, nextId := 0 }

/-- The first run of claim C8's counterexample: customer resolution for the
double-spaced name "Alice  Smith" with no email or phone. -/
def c8Run1 : CustomerResult × SessionState × World × List ApiCall :=
  ensureCustomerExists emptyState exWorldEmpty "prof-1"
    (some "Alice  Smith") none none

/-- The second, identical run over the first run's state and world. -/
def c8Run2 : CustomerResult × SessionState × World × List ApiCall :=
  ensureCustomerExists c8Run1.2.1 c8Run1.2.2.1 "prof-1"
    (some "Alice  Smith") none none

/-- C8 (counterexample): the claim promises at most one remote creation call
for any identical pair of runs. With the name "Alice  Smith" (double space,
no email/phone) the created record normalizes to "Alice Smith", which fails
the substring name match on the second run, so the second run creates a
second customer: two creation calls in total, and the second run returns a
different id than the first. -/
theorem C8_counterexample_double_space_name :
    countCustomerCreates (c8Run1.2.2.2 ++ c8Run2.2.2.2) = 2
    ∧ c8Run1.1.customer_id = some "new-0"
    ∧ c8Run2.1.customer_id = some "new-1" := by
  refine ⟨?_, ?_, ?_⟩ <;> rfl

/-- C8's amended theorem applied at a concrete input, discharging its
hypothesis there: with an email present, two identical runs create at most
once and agree on the returned id. -/
theorem C8_amended_idempotent_witness :
    countCustomerCreates
      ((ensureCustomerExists emptyState exWorldEmpty "prof-1"
          (some "Alice Smith") (some "a@x.com") none).2.2.2 ++
        (ensureCustomerExists
          (ensureCustomerExists emptyState exWorldEmpty "prof-1"
            (some "Alice Smith") (some "a@x.com") none).2.1
          (ensureCustomerExists emptyState exWorldEmpty "prof-1"
            (some "Alice Smith") (some "a@x.com") none).2.2.1
          "prof-1" (some "Alice Smith") (some "a@x.com") none).2.2.2) ≤ 1
    ∧ (ensureCustomerExists
          (ensureCustomerExists emptyState exWorldEmpty "prof-1"
            (some "Alice Smith") (some "a@x.com") none).2.1
          (ensureCustomerExists emptyState exWorldEmpty "prof-1"
            (some "Alice Smith") (some "a@x.com") none).2.2.1
          "prof-1" (some "Alice Smith") (some "a@x.com") none).1.customer_id
        = (ensureCustomerExists emptyState exWorldEmpty "prof-1"
            (some "Alice Smith") (some "a@x.com") none).1.customer_id :=
  C8_amended_idempotent emptyState exWorldEmpty "prof-1"
    (some "Alice Smith") (some "a@x.com") none (Or.inl (by decide))
